import Mathlib

/-!
# Verification of the Spotify snapshot data model

A shallow embedding of the snapshot store, the collector, the historical
archiver and the metric engine of the repository, together with proofs of
the specified properties.

Tables are modelled as lists of rows; SQLite `INSERT OR REPLACE` on the
declared primary key becomes an upsert on that key; pandas `to_sql(...,
if_exists='append')` becomes list append.  Machine floats are modelled by
`Rat` (every quantity the claims mention is produced by exact field
operations on integer data).
-/

set_option autoImplicit false

namespace Spotify

/-! ## Live data model (`spotify_data_analysis.py`, `setup_database`)

One row of the live `tracks` table, primary key `(track_id, time_range)`. -/

structure TrackRow where
  track_id : String
  track_name : String
  artist_name : String
  album_name : String
  release_date : String
  popularity : Int
  duration_ms : Int
  explicit : Bool
  time_range : String
  rank_position : Nat
  collected_date : String
  spotify_url : String
deriving DecidableEq, Repr

/-- One row of the live `artists` table, primary key `(artist_name, time_range)`. -/
structure ArtistRow where
  artist_name : String
  time_range : String
  track_count : Nat
  total_popularity : Int
  avg_rank : Rat
  collected_date : String
deriving DecidableEq, Repr

/-- The live database: tables `tracks` and `artists`. -/
structure LiveDB where
  tracks : List TrackRow
  artists : List ArtistRow
deriving DecidableEq, Repr

def emptyLiveDB : LiveDB := ⟨[], []⟩

/-- `INSERT OR REPLACE INTO tracks`: the row replaces any row sharing the
primary key `(track_id, time_range)`. -/
def upsertTrack (t : List TrackRow) (r : TrackRow) : List TrackRow :=
  (t.filter fun x => ¬(x.track_id = r.track_id ∧ x.time_range = r.time_range)) ++ [r]

/-- `INSERT OR REPLACE INTO artists`: the row replaces any row sharing the
primary key `(artist_name, time_range)`. -/
def upsertArtist (t : List ArtistRow) (r : ArtistRow) : List ArtistRow :=
  (t.filter fun x => ¬(x.artist_name = r.artist_name ∧ x.time_range = r.time_range)) ++ [r]

/-! ## Collector (`spotify_data_analysis.py`, `fetch_listening_data`) -/

/-- One item of the upstream `current_user_top_tracks` response. -/
structure Item where
  id : String
  name : String
  artists : List String
  album_name : String
  album_release_date : String
  popularity : Int
  duration_ms : Int
  explicit : Bool
  spotify_url : String
deriving DecidableEq, Repr

/-- The three look-back windows, in the order the collector iterates them. -/
def timePeriods : List String := ["short_term", "medium_term", "long_term"]

/-- The track row inserted for the item at 1-based rank `rank` of window
`time_range`; `track['artists'][0]['name']` is the head of the artist list. -/
def mkTrackRow (time_range collected_date : String) (rank : Nat) (i : Item) : TrackRow :=
  ⟨i.id, i.name, i.artists.headD "", i.album_name, i.album_release_date,
    i.popularity, i.duration_ms, i.explicit, time_range, rank, collected_date, i.spotify_url⟩

/-- The per-window accumulator `artist_stats[artist]`. -/
structure AStats where
  count : Nat
  total_pop : Int
  ranks : List Nat
deriving DecidableEq, Repr

/-- One step of building `artist_stats`: Python dicts keep insertion order,
so the accumulator is an association list updated in place. -/
def updateStats (m : List (String × AStats)) (a : String) (pop : Int) (rank : Nat) :
    List (String × AStats) :=
  if a ∈ m.map Prod.fst then
    m.map fun p => if p.1 = a then (p.1, ⟨p.2.count + 1, p.2.total_pop + pop, p.2.ranks ++ [rank]⟩) else p
  else
    m ++ [(a, ⟨1, pop, [rank]⟩)]

/-- `enumerate(tracks['items'], 1)`: the items paired with their 1-based rank. -/
def ranked (items : List Item) : List (Nat × Item) :=
  items.enum.map fun p => (p.1 + 1, p.2)

/-- The `artist_stats` dictionary accumulated over one window's items. -/
def artistStats (items : List Item) : List (String × AStats) :=
  (ranked items).foldl (fun m p => updateStats m (p.2.artists.headD "") p.2.popularity p.1) []

/-- `sum(stats['ranks']) / len(stats['ranks'])`. -/
def ratAvg (l : List Nat) : Rat :=
  ((l.sum : Rat)) / ((l.length : Rat))

/-- The artist row upserted for one `artist_stats` entry of a window. -/
def mkArtistRow (time_range collected_date : String) (a : String) (s : AStats) : ArtistRow :=
  ⟨a, time_range, s.count, s.total_pop, ratAvg s.ranks, collected_date⟩

/-- Processing of one successfully fetched window: upsert a track row per
item, then upsert one artist row per `artist_stats` entry. -/
def processWindow (db : LiveDB) (time_range collected_date : String) (items : List Item) :
    LiveDB :=
  ⟨(ranked items).foldl (fun t p => upsertTrack t (mkTrackRow time_range collected_date p.1 p.2)) db.tracks,
   (artistStats items).foldl (fun t p => upsertArtist t (mkArtistRow time_range collected_date p.1 p.2)) db.artists⟩

/-- One iteration of the collector loop: a failed fetch prints the error for
that window and moves on; a successful one processes the window. -/
def collectStep (fetch : String → Except String (List Item)) (collected_date : String)
    (st : LiveDB × List (String × String)) (w : String) : LiveDB × List (String × String) :=
  match fetch w with
  | Except.ok items => (processWindow st.1 w collected_date items, st.2)
  | Except.error e => (st.1, st.2 ++ [(w, e)])

/-- `fetch_listening_data`: iterate the three windows, tolerating per-window
failure; returns the final database and the surfaced per-window errors. -/
def fetchListeningData (fetch : String → Except String (List Item)) (collected_date : String)
    (db : LiveDB) : LiveDB × List (String × String) :=
  timePeriods.foldl (collectStep fetch collected_date) (db, [])

/-- The track rows one successful window writes, in rank order. -/
def windowRows (time_range collected_date : String) (items : List Item) : List TrackRow :=
  (ranked items).map fun p => mkTrackRow time_range collected_date p.1 p.2

/-- The artist rows one successful window writes. -/
def windowArtistRows (time_range collected_date : String) (items : List Item) :
    List ArtistRow :=
  (artistStats items).map fun q => mkArtistRow time_range collected_date q.1 q.2

/-- The track rows a window contributes under a given fetch outcome. -/
def okRows (fetch : String → Except String (List Item)) (collected_date w : String) :
    List TrackRow :=
  match fetch w with
  | Except.ok items => windowRows w collected_date items
  | Except.error _ => []

/-- The artist rows a window contributes under a given fetch outcome. -/
def okArtistRows (fetch : String → Except String (List Item)) (collected_date w : String) :
    List ArtistRow :=
  match fetch w with
  | Except.ok items => windowArtistRows w collected_date items
  | Except.error _ => []

/-- The error a window surfaces under a given fetch outcome. -/
def okErr (fetch : String → Except String (List Item)) (w : String) :
    List (String × String) :=
  match fetch w with
  | Except.ok _ => []
  | Except.error e => [(w, e)]

/-! ## Historical archiver (`historical_data_collector.py`)

`store_historical_data` drops any `collected_date` / `collection_*` columns
from the live rows and adds the archive date stamps, so a historical row is
the live payload minus `collected_date` plus the three stamp columns. -/

structure HistTrackRow where
  collection_date : String
  collection_month : String
  collection_year : Int
  track_id : String
  track_name : String
  artist_name : String
  album_name : String
  release_date : String
  popularity : Int
  duration_ms : Int
  explicit : Bool
  time_range : String
  rank_position : Nat
  spotify_url : String
deriving DecidableEq, Repr

structure HistArtistRow where
  collection_date : String
  collection_month : String
  collection_year : Int
  artist_name : String
  time_range : String
  track_count : Nat
  total_popularity : Int
  avg_rank : Rat
deriving DecidableEq, Repr

/-- One row of `collection_log`, primary key `collection_date`. -/
structure LogEntry where
  collection_date : String
  collection_timestamp : String
  tracks_collected : Nat
  artists_collected : Nat
  notes : String
deriving DecidableEq, Repr

/-- The historical database: `historical_tracks`, `historical_artists`,
`collection_log`. -/
structure HistDB where
  tracks : List HistTrackRow
  artists : List HistArtistRow
  log : List LogEntry
deriving DecidableEq, Repr

def emptyHistDB : HistDB := ⟨[], [], []⟩

/-- A live track row stamped with the archive date/month/year
(the live `collected_date` column is dropped). -/
def stampTrack (d m : String) (y : Int) (r : TrackRow) : HistTrackRow :=
  ⟨d, m, y, r.track_id, r.track_name, r.artist_name, r.album_name, r.release_date,
    r.popularity, r.duration_ms, r.explicit, r.time_range, r.rank_position, r.spotify_url⟩

/-- A live artist row stamped with the archive date/month/year. -/
def stampArtist (d m : String) (y : Int) (r : ArtistRow) : HistArtistRow :=
  ⟨d, m, y, r.artist_name, r.time_range, r.track_count, r.total_popularity, r.avg_rank⟩

/-- The `to_sql(..., if_exists='append')` block of `store_historical_data`:
append the stamped live rows and one log entry for the day. -/
def appendArchive (h : HistDB) (live : LiveDB) (d m : String) (y : Int) (ts : String) : HistDB :=
  let n := live.tracks.length
  let k := live.artists.length
  ⟨h.tracks ++ live.tracks.map (stampTrack d m y),
   h.artists ++ live.artists.map (stampArtist d m y),
   h.log ++ [⟨d, ts, n, k, s!"Automated collection - {n} tracks, {k} artist entries"⟩]⟩

/-- `store_historical_data`: if a log entry for the date exists, ask for
confirmation (`confirm` is the `input() == 'y'` answer); declining returns
`false` with nothing changed; confirming first deletes the date's rows from
all three historical tables.  Then the stamped live rows and the log entry
are appended. -/
def store_historical_data (h : HistDB) (live : LiveDB) (d m : String) (y : Int)
    (ts : String) (confirm : Bool) : Bool × HistDB :=
  let existing := (h.log.filter fun e => e.collection_date = d).length
  if 0 < existing then
    if confirm then
      let h2 : HistDB :=
        ⟨h.tracks.filter fun r => ¬r.collection_date = d,
         h.artists.filter fun r => ¬r.collection_date = d,
         h.log.filter fun e => ¬e.collection_date = d⟩
      (true, appendArchive h2 live d m y ts)
    else
      (false, h)
  else
    (true, appendArchive h live d m y ts)

/-! ## Metric engine

### Persistence (`identity_vs_mood_analysis.py`, `calculate_identity_signals`) -/

/-- The distinct `(track_name, artist_name)` keys of the pandas groupby. -/
def pairKeys (t : List TrackRow) : List (String × String) :=
  (t.map fun r => (r.track_name, r.artist_name)).dedup

/-- The rows of one `(track_name, artist_name)` group. -/
def rowsOf (t : List TrackRow) (k : String × String) : List TrackRow :=
  t.filter fun r => r.track_name = k.1 ∧ r.artist_name = k.2

/-- `calculate_identity_signals` aggregates each group with
`{'time_range': 'count'}`, so `period_count` is the number of rows of the
group; groups with `period_count >= 2` are the persistent songs. -/
def persistence_score (t : List TrackRow) : Rat :=
  (((pairKeys t).filter fun k => 2 ≤ (rowsOf t k).length).length : Rat)
    / ((pairKeys t).length : Rat) * 100

/-- The distinct look-back windows in which a `(track_name, artist_name)`
pair has rows. -/
def windowsOf (t : List TrackRow) (k : String × String) : List String :=
  ((rowsOf t k).map (·.time_range)).dedup

/-- Modelled from the spec: persistence score counting pairs that appear in
at least 2 distinct look-back windows (the spec's words), to be compared
with `persistence_score` computed by the source. -/
def persistenceScoreSpec (t : List TrackRow) : Rat :=
  (((pairKeys t).filter fun k => 2 ≤ (windowsOf t k).length).length : Rat)
    / ((pairKeys t).length : Rat) * 100

/-! ### Niche, dominance, diversity, identity score -/

/-- Tracks with `popularity < 50` as a percentage of all track rows. -/
def nichePercentage (t : List TrackRow) : Rat :=
  ((t.filter fun r => r.popularity < 50).length : Rat) / (t.length : Rat) * 100

/-- The `(artist, row count)` pairs underlying `value_counts()`, one per
distinct artist name. -/
def artistCountsRaw (t : List TrackRow) : List (String × Nat) :=
  (t.map (·.artist_name)).dedup.map fun a => (a, (t.filter fun r => r.artist_name = a).length)

/-- Descending-count comparison used to model `value_counts()`s ordering. -/
def countGE (p q : String × Nat) : Prop := q.2 ≤ p.2

instance : DecidableRel countGE := fun p q => Nat.decLe q.2 p.2

instance : IsTotal (String × Nat) countGE :=
  ⟨fun p q => (Nat.le_total q.2 p.2).elim Or.inl Or.inr⟩

instance : IsTrans (String × Nat) countGE :=
  ⟨fun _ _ _ h1 h2 => Nat.le_trans h2 h1⟩

/-- `self.tracks['artist_name'].value_counts()`: the per-artist row counts
sorted by count, largest first. -/
def artistCounts (t : List TrackRow) : List (String × Nat) :=
  (artistCountsRaw t).insertionSort countGE

/-- `artist_counts.iloc[0] / len(self.tracks) * 100`: the first (largest)
count of `value_counts()` as a percentage of all rows. -/
def artistDominance (t : List TrackRow) : Rat :=
  (((artistCounts t).headD ("", 0)).2 : Rat) / (t.length : Rat) * 100

/-- `len(artist_counts) / len(self.tracks)`. -/
def artistDiversity (t : List TrackRow) : Rat :=
  ((t.map (·.artist_name)).dedup.length : Rat) / (t.length : Rat)

/-- The composite identity score of `identity_vs_mood_classification`. -/
def identity_score (t : List TrackRow) : Rat :=
  persistence_score t * 0.3 + nichePercentage t * 0.3
    + (100 - artistDominance t) * 0.2 + artistDiversity t * 100 * 0.2

/-- The composite mood score of `identity_vs_mood_classification`, as a
function of the already-computed mood signal values. -/
def mood_score (volatility popvariance eradiversity : Rat) : Rat :=
  min (volatility * 10) 100 * 0.4 + min (popvariance * 2) 100 * 0.3
    + min (eradiversity * 3) 100 * 0.3

/-! ### Trend slope (`spotify_data_analysis.py`, `print_advanced_analysis`) -/

/-- `period_order = \x7b'long_term': 1, 'medium_term': 2, 'short_term': 3\x7d`. -/
def periodOrder (w : String) : Nat :=
  if w = "long_term" then 1 else if w = "medium_term" then 2
  else if w = "short_term" then 3 else 0

/-- The ordinary-least-squares slope computed by the regression library,
in its computational form. -/
def lrSlope (pts : List (Rat × Rat)) : Rat :=
  let n : Rat := (pts.length : Rat)
  let sx := (pts.map Prod.fst).sum
  let sy := (pts.map Prod.snd).sum
  let sxy := (pts.map fun p => p.1 * p.2).sum
  let sxx := (pts.map fun p => p.1 * p.1).sum
  (n * sxy - sx * sy) / (n * sxx - sx * sx)

/-- Modelled from the spec: the textbook simple-linear-regression slope
`Σ(x-x̄)(y-ȳ) / Σ(x-x̄)²`, to be compared with `lrSlope`. -/
def slopeCentered (pts : List (Rat × Rat)) : Rat :=
  let n : Rat := (pts.length : Rat)
  let xbar := (pts.map Prod.fst).sum / n
  let ybar := (pts.map Prod.snd).sum / n
  ((pts.map fun p => (p.1 - xbar) * (p.2 - ybar)).sum)
    / ((pts.map fun p => (p.1 - xbar) * (p.1 - xbar)).sum)

/-- The rows of one artist (`tracks_df[tracks_df['artist_name'] == artist]`). -/
def artistRows (t : List TrackRow) (a : String) : List TrackRow :=
  t.filter fun r => r.artist_name = a

/-- The trend slope of `print_advanced_analysis`: computed only when the
artist has rows in more than one window (and more than one row), regressing
`rank_position` on the mapped `period_num`. -/
def artistSlope (t : List TrackRow) (a : String) : Option Rat :=
  let rows := artistRows t a
  if 1 < ((rows.map (·.time_range)).dedup).length ∧ 1 < rows.length then
    some (lrSlope (rows.map fun r => ((periodOrder r.time_range : Rat), (r.rank_position : Rat))))
  else none

/-- `slope < -1` puts the artist in the improving list, `slope > 1` in the
declining list, anything between in neither. -/
def trendClass (s : Rat) : String :=
  if s < -1 then "improving" else if 1 < s then "declining" else "neither"

/-- A sample track row used by the concrete witnesses below. -/
def sampleTrack : TrackRow :=
  ⟨"id1", "Song A", "Artist P", "Album", "2001-01-01", 30, 200000, false,
    "short_term", 1, "2024-01-01 00:00:00", "http"⟩

/-- The slice of the historical store belonging to one collection date. -/
def histFilterDate (h : HistDB) (d : String) : HistDB :=
  ⟨h.tracks.filter fun r => r.collection_date = d,
   h.artists.filter fun r => r.collection_date = d,
   h.log.filter fun e => e.collection_date = d⟩

/-- The greatest per-artist row count (the first entry of the descending
`value_counts()`). -/
def maxTrackCount (t : List TrackRow) : Nat :=
  ((artistCountsRaw t).map Prod.snd).foldr max 0

/-- Modelled from the spec: artist dominance as the most-frequent artist's
track count over total track rows, times 100, to be compared with
`artistDominance` read off `value_counts()`. -/
def artistDominanceSpec (t : List TrackRow) : Rat :=
  (maxTrackCount t : Rat) / (t.length : Rat) * 100

/-- Two live rows with distinct track ids but the same song name, artist and
window: legal under the primary key `(track_id, time_range)`. -/
def dupWindowTable : List TrackRow :=
  [{ sampleTrack with track_id := "idA" }, { sampleTrack with track_id := "idB" }]

/-- The same song archived in all three windows. -/
def threeWindowTable : List TrackRow :=
  [sampleTrack, { sampleTrack with time_range := "medium_term", rank_position := 2 },
   { sampleTrack with time_range := "long_term", rank_position := 3 }]

/-- The spec's trend-slope test data: rank 40 in `long_term`, rank 10 in
`short_term`, no `medium_term` row. -/
def slopeExampleTable : List TrackRow :=
  [{ sampleTrack with time_range := "long_term", rank_position := 40 },
   { sampleTrack with track_id := "id2", track_name := "Song B", time_range := "short_term", rank_position := 10 }]

/-- The spec's niche-percentage test data: popularities 10, 40, 60, 90. -/
def nicheExampleTable : List TrackRow :=
  [{ sampleTrack with popularity := 10 },
   { sampleTrack with track_id := "id2", popularity := 40 },
   { sampleTrack with track_id := "id3", popularity := 60 },
   { sampleTrack with track_id := "id4", popularity := 90 }]

/-- An upstream item by artist P with track id `a`. -/
def exItemA : Item := ⟨"a", "Song A", ["P"], "Al", "2001", 10, 1000, false, "u"⟩

/-- A different track id by the same artist P. -/
def exItemB : Item := ⟨"b", "Song B", ["P"], "Al", "2001", 20, 1000, false, "u"⟩

/-- A second item sharing track id `a` (a duplicate id inside one window). -/
def exItemA2 : Item := ⟨"a", "Song A2", ["P"], "Al", "2001", 30, 1000, false, "u"⟩

/-- First run's fetch: item `a` in the short window only. -/
def exFetch1 : String → Except String (List Item) :=
  fun w => if w = "short_term" then Except.ok [exItemA] else Except.ok []

/-- Second run's fetch: item `b` (same artist) in the short window only. -/
def exFetch2 : String → Except String (List Item) :=
  fun w => if w = "short_term" then Except.ok [exItemB] else Except.ok []

/-- A fetch returning two items with the same track id in one window. -/
def exFetchDup : String → Except String (List Item) :=
  fun w => if w = "short_term" then Except.ok [exItemA, exItemA2] else Except.ok []

/-- The live state after running the collector twice (second run over the
first run's tables). -/
def exRun2 : LiveDB :=
  (fetchListeningData exFetch2 "d2" (fetchListeningData exFetch1 "d1" emptyLiveDB).1).1

/-- The live state after one run whose fetch repeats a track id. -/
def exRunDup : LiveDB := (fetchListeningData exFetchDup "d1" emptyLiveDB).1

/-- `exFetch1` with the medium window failing upstream. -/
def exFetchFail : String → Except String (List Item) :=
  fun w => if w = "medium_term" then Except.error "boom" else exFetch1 w

/-- The artist attribution of a ranked item: `track['artists'][0]['name']`. -/
def pKey (p : Nat × Item) : String := p.2.artists.headD ""

/-- `artist_stats` accumulated over an arbitrary ranked list. -/
def statsFold (l : List (Nat × Item)) : List (String × AStats) :=
  l.foldl (fun m p => updateStats m (p.2.artists.headD "") p.2.popularity p.1) []

/-! ## General list lemmas -/

theorem filter_filter_not {α : Type} (p : α → Prop) [DecidablePred p] (l : List α) :
    (l.filter fun a => ¬ p a).filter (fun a => p a) = [] := by
  rw [List.filter_eq_nil_iff]
  intro a ha
  have h2 := (List.mem_filter.mp ha).2
  simp only [decide_eq_true_eq] at h2 ⊢
  exact h2

theorem filter_eq_self_of_forall {α : Type} (p : α → Prop) [DecidablePred p] (l : List α)
    (h : ∀ a ∈ l, p a) : l.filter (fun a => p a) = l := by
  rw [List.filter_eq_self]
  intro a ha
  exact decide_eq_true (h a ha)

/-! ## Claim theorems -/

theorem filter_key_upsertTrack (t : List TrackRow) (r : TrackRow) :
    ((upsertTrack t r).filter
      fun x => x.track_id = r.track_id ∧ x.time_range = r.time_range) = [r] := by
  unfold upsertTrack
  rw [List.filter_append, List.filter_filter]
  rw [show (t.filter fun x =>
      decide (x.track_id = r.track_id ∧ x.time_range = r.time_range) &&
      decide (¬(x.track_id = r.track_id ∧ x.time_range = r.time_range))) = [] from ?_]
  · simp
  · rw [List.filter_eq_nil_iff]
    intro a _
    by_cases h : a.track_id = r.track_id ∧ a.time_range = r.time_range <;> simp [h]

theorem filter_key_upsertArtist (t : List ArtistRow) (r : ArtistRow) :
    ((upsertArtist t r).filter
      fun x => x.artist_name = r.artist_name ∧ x.time_range = r.time_range) = [r] := by
  unfold upsertArtist
  rw [List.filter_append, List.filter_filter]
  rw [show (t.filter fun x =>
      decide (x.artist_name = r.artist_name ∧ x.time_range = r.time_range) &&
      decide (¬(x.artist_name = r.artist_name ∧ x.time_range = r.time_range))) = [] from ?_]
  · simp
  · rw [List.filter_eq_nil_iff]
    intro a _
    by_cases h : a.artist_name = r.artist_name ∧ a.time_range = r.time_range <;> simp [h]

/-- C2: upserting two track rows sharing the `(track_id, time_range)` key
leaves exactly one row for that key, carrying the second row's values, and
the same holds for artist rows keyed by `(artist_name, time_range)`. -/
theorem upsert_last_write_wins (t : List TrackRow) (r1 r2 : TrackRow)
    (hid : r1.track_id = r2.track_id) (hw : r1.time_range = r2.time_range)
    (ta : List ArtistRow) (a1 a2 : ArtistRow)
    (hna : a1.artist_name = a2.artist_name) (hwa : a1.time_range = a2.time_range) :
    ((upsertTrack (upsertTrack t r1) r2).filter
        fun x => x.track_id = r2.track_id ∧ x.time_range = r2.time_range) = [r2]
    ∧ ((upsertArtist (upsertArtist ta a1) a2).filter
        fun x => x.artist_name = a2.artist_name ∧ x.time_range = a2.time_range) = [a2] :=
  ⟨filter_key_upsertTrack (upsertTrack t r1) r2, filter_key_upsertArtist (upsertArtist ta a1) a2⟩

/-- Witness for C2 at concrete rows differing only in popularity. -/
theorem upsert_last_write_wins_witness :
    (sampleTrack.track_id = { sampleTrack with popularity := 80 }.track_id
      ∧ sampleTrack.time_range = { sampleTrack with popularity := 80 }.time_range)
    ∧ ((upsertTrack (upsertTrack [] sampleTrack) { sampleTrack with popularity := 80 }).filter
        fun x => x.track_id = { sampleTrack with popularity := 80 }.track_id
          ∧ x.time_range = { sampleTrack with popularity := 80 }.time_range)
        = [{ sampleTrack with popularity := 80 }] :=
  ⟨⟨rfl, rfl⟩,
    (upsert_last_write_wins [] sampleTrack { sampleTrack with popularity := 80 } rfl rfl
      [] ⟨"Artist P", "short_term", 1, 30, 1, "2024"⟩ ⟨"Artist P", "short_term", 1, 80, 1, "2024"⟩
      rfl rfl).1⟩

/-- C3: an archiver run on a date with no prior `collection_log` entry
appends exactly the stamped live rows — `n` track rows and `m` artist rows,
each carrying the archive date — and exactly one log entry whose
`tracks_collected` is `n` and whose `artists_collected` is `m`. -/
theorem archiver_first_run (h : HistDB) (live : LiveDB) (d m : String) (y : Int)
    (ts : String) (confirm : Bool)
    (hnone : (h.log.filter fun e => e.collection_date = d).length = 0) :
    (store_historical_data h live d m y ts confirm).1 = true
    ∧ (store_historical_data h live d m y ts confirm).2.tracks
        = h.tracks ++ live.tracks.map (stampTrack d m y)
    ∧ (store_historical_data h live d m y ts confirm).2.artists
        = h.artists ++ live.artists.map (stampArtist d m y)
    ∧ (∀ r ∈ live.tracks.map (stampTrack d m y), r.collection_date = d)
    ∧ (∀ r ∈ live.artists.map (stampArtist d m y), r.collection_date = d)
    ∧ ∃ e : LogEntry, (store_historical_data h live d m y ts confirm).2.log = h.log ++ [e]
        ∧ e.collection_date = d
        ∧ e.tracks_collected = live.tracks.length
        ∧ e.artists_collected = live.artists.length := by
  have hcond : ¬ 0 < (h.log.filter fun e => e.collection_date = d).length := by
    rw [hnone]; exact Nat.lt_irrefl 0
  have e0 : store_historical_data h live d m y ts confirm
      = (true, appendArchive h live d m y ts) := by
    rw [store_historical_data]
    simp only [if_neg hcond]
  rw [e0]
  refine ⟨rfl, rfl, rfl, ?_, ?_, ?_⟩
  · intro r hr
    rcases List.mem_map.mp hr with ⟨x, _, rfl⟩
    rfl
  · intro r hr
    rcases List.mem_map.mp hr with ⟨x, _, rfl⟩
    rfl
  · exact ⟨_, rfl, rfl, rfl, rfl⟩

/-- Witness for C3 at a one-track, one-artist live database. -/
theorem archiver_first_run_witness :
    (((emptyHistDB).log.filter fun e => e.collection_date = "2024-06-01").length = 0)
    ∧ (store_historical_data emptyHistDB
        ⟨[sampleTrack], [⟨"Artist P", "short_term", 1, 30, 1, "2024"⟩]⟩
        "2024-06-01" "2024-06" 2024 "2024-06-01 12:00:00" false).2.tracks
      = [] ++ [sampleTrack].map (stampTrack "2024-06-01" "2024-06" 2024) :=
  ⟨rfl,
    (archiver_first_run emptyHistDB
      ⟨[sampleTrack], [⟨"Artist P", "short_term", 1, 30, 1, "2024"⟩]⟩
      "2024-06-01" "2024-06" 2024 "2024-06-01 12:00:00" false rfl).2.1⟩

/-- C1: when a `collection_log` entry for the date already exists, declining
the prompt is a no-op (`False` is returned and the store is untouched);
confirming makes the date's slice of the historical store equal to the slice
produced by a fresh archive of the same live tables into an empty store. -/
theorem archiver_rerun_same_day (h : HistDB) (live : LiveDB) (d m : String) (y : Int)
    (ts : String)
    (hex : 0 < (h.log.filter fun e => e.collection_date = d).length) :
    store_historical_data h live d m y ts false = (false, h)
    ∧ histFilterDate (store_historical_data h live d m y ts true).2 d
        = histFilterDate (store_historical_data emptyHistDB live d m y ts true).2 d := by
  constructor
  · rw [store_historical_data]
    simp only [if_pos hex, if_neg (Bool.false_ne_true)]
  · have e1 : store_historical_data h live d m y ts true
        = (true, appendArchive ⟨h.tracks.filter fun r => ¬r.collection_date = d,
            h.artists.filter fun r => ¬r.collection_date = d,
            h.log.filter fun e => ¬e.collection_date = d⟩ live d m y ts) := by
      rw [store_historical_data]
      simp only [if_pos hex, eq_self_iff_true, if_true]
    have e2 : store_historical_data emptyHistDB live d m y ts true
        = (true, appendArchive emptyHistDB live d m y ts) := rfl
    rw [e1, e2]
    unfold appendArchive histFilterDate emptyHistDB
    simp only [List.filter_append, List.nil_append]
    rw [filter_filter_not (fun r : HistTrackRow => r.collection_date = d),
        filter_filter_not (fun r : HistArtistRow => r.collection_date = d),
        filter_filter_not (fun e : LogEntry => e.collection_date = d)]
    rw [filter_eq_self_of_forall (fun r : HistTrackRow => r.collection_date = d)
        (live.tracks.map (stampTrack d m y)) ?_,
      filter_eq_self_of_forall (fun r : HistArtistRow => r.collection_date = d)
        (live.artists.map (stampArtist d m y)) ?_]
    · simp
    · intro a ha
      rcases List.mem_map.mp ha with ⟨x, _, rfl⟩
      rfl
    · intro a ha
      rcases List.mem_map.mp ha with ⟨x, _, rfl⟩
      rfl

/-- Witness for C1 at a store already holding an entry for the date. -/
theorem archiver_rerun_same_day_witness :
    (0 < (([⟨"2024-06-01", "ts", 1, 1, "n"⟩] : List LogEntry).filter
        fun e => e.collection_date = "2024-06-01").length)
    ∧ store_historical_data ⟨[], [], [⟨"2024-06-01", "ts", 1, 1, "n"⟩]⟩
        ⟨[sampleTrack], []⟩ "2024-06-01" "2024-06" 2024 "ts2" false
      = (false, ⟨[], [], [⟨"2024-06-01", "ts", 1, 1, "n"⟩]⟩) :=
  ⟨by decide,
    (archiver_rerun_same_day ⟨[], [], [⟨"2024-06-01", "ts", 1, 1, "n"⟩]⟩
      ⟨[sampleTrack], []⟩ "2024-06-01" "2024-06" 2024 "ts2" (by decide)).1⟩

/-- C6 counterexample: on a table whose single `(track, artist)` pair has
two rows inside one window (distinct track ids, same song name), every pair
appears in exactly one window, yet the source's persistence score is 100,
not the 0 the claim requires; the distinct-window score of the claim is 0. -/
theorem persistence_score_counterexample :
    persistence_score dupWindowTable = 100
    ∧ persistenceScoreSpec dupWindowTable = 0
    ∧ (∀ k ∈ pairKeys dupWindowTable, (windowsOf dupWindowTable k).length = 1) := by
  refine ⟨?_, ?_, by decide⟩
  · unfold persistence_score
    rw [show ((pairKeys dupWindowTable).filter
          fun k => 2 ≤ (rowsOf dupWindowTable k).length).length = 1 by decide]
    rw [show (pairKeys dupWindowTable).length = 1 by decide]
    norm_num
  · unfold persistenceScoreSpec
    rw [show ((pairKeys dupWindowTable).filter
          fun k => 2 ≤ (windowsOf dupWindowTable k).length).length = 0 by decide]
    rw [show (pairKeys dupWindowTable).length = 1 by decide]
    norm_num

/-- C6 amended: the source counts rows per `(track_name, artist_name)` group
(`\x7b'time_range': 'count'\x7d`), not distinct windows, so the score is
(pairs with ≥ 2 rows) / (pairs) × 100.  It coincides with the claimed
distinct-window score whenever no pair has two rows in one window; it is 100
whenever every pair appears in at least 2 (in particular in all three)
windows, and 0 whenever every pair has exactly one row. -/
theorem persistence_score_amended (t : List TrackRow) (hne : t ≠ []) :
    ((∀ k ∈ pairKeys t, (((rowsOf t k).map (·.time_range)).Nodup)) →
        persistence_score t = persistenceScoreSpec t)
    ∧ ((∀ k ∈ pairKeys t, 2 ≤ (windowsOf t k).length) → persistence_score t = 100)
    ∧ ((∀ k ∈ pairKeys t, (rowsOf t k).length = 1) → persistence_score t = 0) := by
  have hkeyne : pairKeys t ≠ [] := by
    unfold pairKeys
    rw [Ne, List.dedup_eq_nil, List.map_eq_nil]
    exact hne
  have ncast : ((pairKeys t).length : Rat) ≠ 0 :=
    Nat.cast_ne_zero.mpr (List.length_pos.mpr hkeyne).ne'
  refine ⟨?_, ?_, ?_⟩
  · intro h
    unfold persistence_score persistenceScoreSpec windowsOf
    rw [List.filter_congr ?_]
    intro k hk
    have hd : ((rowsOf t k).map (·.time_range)).dedup = (rowsOf t k).map (·.time_range) :=
      List.dedup_eq_self.mpr (h k hk)
    rw [hd, List.length_map]
  · intro h
    have hsub : ∀ k ∈ pairKeys t, 2 ≤ (rowsOf t k).length := by
      intro k hk
      refine le_trans (h k hk) ?_
      unfold windowsOf
      exact le_trans (List.Sublist.length_le (List.dedup_sublist _))
        (le_of_eq (List.length_map _ _))
    unfold persistence_score
    rw [filter_eq_self_of_forall _ _ hsub, div_self ncast, one_mul]
  · intro h
    have hfil : ((pairKeys t).filter fun k => 2 ≤ (rowsOf t k).length) = [] := by
      rw [List.filter_eq_nil_iff]
      intro k hk
      simp only [decide_eq_true_eq]
      rw [h k hk]
      omega
    unfold persistence_score
    rw [hfil]
    norm_num

/-- Witness for the amended C6: the score is 100 on the three-window table
and 0 on a single-row table. -/
theorem persistence_score_amended_witness :
    (threeWindowTable ≠ []
      ∧ (∀ k ∈ pairKeys threeWindowTable, 2 ≤ (windowsOf threeWindowTable k).length)
      ∧ persistence_score threeWindowTable = 100)
    ∧ ([sampleTrack] ≠ []
      ∧ (∀ k ∈ pairKeys [sampleTrack], (rowsOf [sampleTrack] k).length = 1)
      ∧ persistence_score [sampleTrack] = 0) :=
  ⟨⟨by decide, by decide,
      (persistence_score_amended threeWindowTable (by decide)).2.1 (by decide)⟩,
   ⟨by decide, by decide,
      (persistence_score_amended [sampleTrack] (by decide)).2.2 (by decide)⟩⟩

theorem sum_centered_mul (c e : Rat) (l : List (Rat × Rat)) :
    (l.map fun p => (p.1 - c) * (p.2 - e)).sum
      = (l.map fun p => p.1 * p.2).sum - e * (l.map Prod.fst).sum
        - c * (l.map Prod.snd).sum + l.length * (c * e) := by
  induction l with
  | nil => simp
  | cons x xs ih =>
    simp only [List.map_cons, List.sum_cons, List.length_cons, ih]
    push_cast
    ring

theorem sum_centered_sq (c : Rat) (l : List (Rat × Rat)) :
    (l.map fun p => (p.1 - c) * (p.1 - c)).sum
      = (l.map fun p => p.1 * p.1).sum - 2 * c * (l.map Prod.fst).sum
        + l.length * (c * c) := by
  induction l with
  | nil => simp
  | cons x xs ih =>
    simp only [List.map_cons, List.sum_cons, List.length_cons, ih]
    push_cast
    ring

/-- C7: no slope is produced for an artist with rows in fewer than 2
distinct windows; with rows in at least 2 windows the slope is the
ordinary-least-squares slope of rank position against the window order
`long=1, medium=2, short=3`; the computational slope agrees with the
textbook centred regression slope whenever the x-variance is nonzero; and on
the spec's test data (rank 40 in `long_term`, rank 10 in `short_term`, no
`medium_term` row) the slope is `-15 < -1`, classified improving. -/
theorem trend_slope_correct :
    (∀ (t : List TrackRow) (a : String),
        (((artistRows t a).map (·.time_range)).dedup).length < 2 →
        artistSlope t a = none)
    ∧ (∀ (t : List TrackRow) (a : String),
        1 < (((artistRows t a).map (·.time_range)).dedup).length →
        artistSlope t a = some (lrSlope ((artistRows t a).map
          fun r => ((periodOrder r.time_range : Rat), (r.rank_position : Rat)))))
    ∧ (∀ pts : List (Rat × Rat),
        (pts.length : Rat) * (pts.map fun p => p.1 * p.1).sum
            - (pts.map Prod.fst).sum * (pts.map Prod.fst).sum ≠ 0 →
        lrSlope pts = slopeCentered pts)
    ∧ artistSlope slopeExampleTable "Artist P" = some (-15)
    ∧ (-15 : Rat) < -1 ∧ trendClass (-15) = "improving" := by
  have hrowsle : ∀ (t : List TrackRow) (a : String),
      (((artistRows t a).map (·.time_range)).dedup).length ≤ (artistRows t a).length :=
    fun t a => le_trans (List.Sublist.length_le (List.dedup_sublist _))
      (le_of_eq (List.length_map _ _))
  have hpos : ∀ (t : List TrackRow) (a : String),
      1 < (((artistRows t a).map (·.time_range)).dedup).length →
      artistSlope t a = some (lrSlope ((artistRows t a).map
        fun r => ((periodOrder r.time_range : Rat), (r.rank_position : Rat)))) := by
    intro t a h
    unfold artistSlope
    rw [if_pos ⟨h, lt_of_lt_of_le h (hrowsle t a)⟩]
  have heqv : ∀ pts : List (Rat × Rat),
      (pts.length : Rat) * (pts.map fun p => p.1 * p.1).sum
          - (pts.map Prod.fst).sum * (pts.map Prod.fst).sum ≠ 0 →
      lrSlope pts = slopeCentered pts := by
    intro pts hd
    have hn : (pts.length : Rat) ≠ 0 := by
      intro h0
      have hnil : pts = [] := List.length_eq_zero.mp (Nat.cast_eq_zero.mp h0)
      rw [hnil] at hd
      simp at hd
    simp only [lrSlope, slopeCentered]
    rw [sum_centered_mul, sum_centered_sq]
    have hB : (pts.map fun p => p.1 * p.1).sum
          - 2 * ((pts.map Prod.fst).sum / (pts.length : Rat)) * (pts.map Prod.fst).sum
          + (pts.length : Rat) * ((pts.map Prod.fst).sum / (pts.length : Rat)
              * ((pts.map Prod.fst).sum / (pts.length : Rat)))
        = ((pts.length : Rat) * (pts.map fun p => p.1 * p.1).sum
            - (pts.map Prod.fst).sum * (pts.map Prod.fst).sum) / (pts.length : Rat) := by
      field_simp
      ring
    have hA : (pts.map fun p => p.1 * p.2).sum
          - (pts.map Prod.snd).sum / (pts.length : Rat) * (pts.map Prod.fst).sum
          - (pts.map Prod.fst).sum / (pts.length : Rat) * (pts.map Prod.snd).sum
          + (pts.length : Rat) * ((pts.map Prod.fst).sum / (pts.length : Rat)
              * ((pts.map Prod.snd).sum / (pts.length : Rat)))
        = ((pts.length : Rat) * (pts.map fun p => p.1 * p.2).sum
            - (pts.map Prod.fst).sum * (pts.map Prod.snd).sum) / (pts.length : Rat) := by
      field_simp
      ring
    rw [hA, hB]
    rw [div_div_div_cancel_right₀]
    exact hn
  refine ⟨?_, hpos, heqv, ?_, by norm_num, ?_⟩
  · intro t a h
    unfold artistSlope
    rw [if_neg]
    intro hc
    exact absurd hc.1 (by omega)
  · rw [hpos slopeExampleTable "Artist P" (by decide)]
    rw [show (artistRows slopeExampleTable "Artist P").map
          (fun r => ((periodOrder r.time_range : Rat), (r.rank_position : Rat)))
        = [((1 : Rat), (40 : Rat)), ((3 : Rat), (10 : Rat))] by decide]
    norm_num [lrSlope]
  · unfold trendClass
    rw [if_pos (by norm_num : (-15 : Rat) < -1)]

/-- Witness for C7: the degenerate case at an empty table, the
formula-agreement at the test points, and the concrete slope test. -/
theorem trend_slope_correct_witness :
    ((((artistRows [] "X").map (·.time_range)).dedup).length < 2
      ∧ artistSlope [] "X" = none)
    ∧ ((([((1 : Rat), (40 : Rat)), ((3 : Rat), (10 : Rat))].length : Rat)
          * ([((1 : Rat), (40 : Rat)), ((3 : Rat), (10 : Rat))].map fun p => p.1 * p.1).sum
          - ([((1 : Rat), (40 : Rat)), ((3 : Rat), (10 : Rat))].map Prod.fst).sum
            * ([((1 : Rat), (40 : Rat)), ((3 : Rat), (10 : Rat))].map Prod.fst).sum ≠ 0)
      ∧ lrSlope [((1 : Rat), (40 : Rat)), ((3 : Rat), (10 : Rat))]
        = slopeCentered [((1 : Rat), (40 : Rat)), ((3 : Rat), (10 : Rat))]) :=
  ⟨⟨by decide, trend_slope_correct.1 [] "X" (by decide)⟩,
   ⟨by norm_num, trend_slope_correct.2.2.1 _ (by norm_num)⟩⟩

theorem le_foldr_max (l : List Nat) : ∀ x ∈ l, x ≤ l.foldr max 0 := by
  induction l with
  | nil => intro x hx; exact absurd hx (List.not_mem_nil x)
  | cons y ys ih =>
    intro x hx
    rcases List.mem_cons.mp hx with rfl | hx2
    · exact le_max_left _ _
    · exact le_trans (ih x hx2) (le_max_right _ _)

theorem foldr_max_mem (l : List Nat) (h : l ≠ []) : l.foldr max 0 ∈ l := by
  induction l with
  | nil => exact absurd rfl h
  | cons y ys ih =>
    by_cases hys : ys = []
    · subst hys
      simp
    · have hmem := ih hys
      rw [List.foldr_cons]
      rcases max_choice y (ys.foldr max 0) with hm | hm
      · rw [hm]
        exact List.mem_cons_self _ _
      · rw [hm]
        exact List.mem_cons_of_mem _ hmem

theorem artistCountsRaw_ne_nil (t : List TrackRow) (hne : t ≠ []) :
    artistCountsRaw t ≠ [] := by
  unfold artistCountsRaw
  rw [Ne, List.map_eq_nil, List.dedup_eq_nil, List.map_eq_nil]
  exact hne

/-- The first entry of the descending `value_counts()` carries the greatest
per-artist count. -/
theorem artistCounts_head_eq_max (t : List TrackRow) (hne : t ≠ []) :
    ((artistCounts t).headD ("", 0)).2 = maxTrackCount t := by
  have hraw := artistCountsRaw_ne_nil t hne
  have hperm : List.Perm (artistCounts t) (artistCountsRaw t) :=
    List.perm_insertionSort countGE _
  have hsorted : List.Sorted countGE (artistCounts t) := List.sorted_insertionSort countGE _
  cases hAC : artistCounts t with
  | nil =>
    exfalso
    apply hraw
    have hl := hperm.length_eq
    rw [hAC] at hl
    exact List.length_eq_zero.mp hl.symm
  | cons p L =>
    rw [hAC] at hperm hsorted
    rw [List.headD_cons]
    have hpmem : p ∈ artistCountsRaw t := hperm.subset (List.mem_cons_self p L)
    have hle : p.2 ≤ maxTrackCount t :=
      le_foldr_max ((artistCountsRaw t).map Prod.snd) p.2 (List.mem_map.mpr ⟨p, hpmem, rfl⟩)
    have hmax_mem : maxTrackCount t ∈ (artistCountsRaw t).map Prod.snd := by
      apply foldr_max_mem
      rw [Ne, List.map_eq_nil]
      exact hraw
    rcases List.mem_map.mp hmax_mem with ⟨q, hq, hq2⟩
    have hge : maxTrackCount t ≤ p.2 := by
      rcases List.mem_cons.mp (hperm.mem_iff.mpr hq) with rfl | hqL
      · exact le_of_eq hq2.symm
      · rw [← hq2]
        exact List.rel_of_sorted_cons hsorted q hqL
    exact le_antisymm hle hge

/-- C8: the composite identity score is exactly
`0.3·persistence + 0.3·niche% + 0.2·(100 − dominance) + 0.2·(diversity·100)`
with dominance the most-frequent artist's share (the sorted `value_counts()`
head attains the maximum count), and the mood score uses the `min(x·k, 100)`
clamps exactly as written. -/
theorem identity_score_formula (t : List TrackRow) (hne : t ≠ []) :
    identity_score t
      = persistence_score t * 0.3 + nichePercentage t * 0.3
        + (100 - artistDominanceSpec t) * 0.2 + artistDiversity t * 100 * 0.2
    ∧ artistDominance t = artistDominanceSpec t
    ∧ (∃ a, (a, maxTrackCount t) ∈ artistCountsRaw t
          ∧ ∀ q ∈ artistCountsRaw t, q.2 ≤ maxTrackCount t)
    ∧ (∀ v pv e : Rat, mood_score v pv e
          = 0.4 * min (v * 10) 100 + 0.3 * min (pv * 2) 100 + 0.3 * min (e * 3) 100) := by
  have hdom : artistDominance t = artistDominanceSpec t := by
    unfold artistDominance artistDominanceSpec
    rw [artistCounts_head_eq_max t hne]
  refine ⟨?_, hdom, ?_, ?_⟩
  · unfold identity_score
    rw [hdom]
  · have hraw := artistCountsRaw_ne_nil t hne
    have hmax_mem : maxTrackCount t ∈ (artistCountsRaw t).map Prod.snd := by
      apply foldr_max_mem
      rw [Ne, List.map_eq_nil]
      exact hraw
    rcases List.mem_map.mp hmax_mem with ⟨q, hq, hq2⟩
    refine ⟨q.1, ?_, fun p hp => le_foldr_max _ _ (List.mem_map.mpr ⟨p, hp, rfl⟩)⟩
    have : q = (q.1, maxTrackCount t) := by
      rw [← hq2]
    rw [← this]
    exact hq
  · intro v pv e
    unfold mood_score
    ring

/-- Witness for C8 at the spec's niche test table (popularities 10, 40, 60,
90), whose niche percentage is 50. -/
theorem identity_score_formula_witness :
    nicheExampleTable ≠ []
    ∧ artistDominance nicheExampleTable = artistDominanceSpec nicheExampleTable
    ∧ nichePercentage nicheExampleTable = 50 := by
  refine ⟨by decide, (identity_score_formula nicheExampleTable (by decide)).2.1, ?_⟩
  unfold nichePercentage
  rw [show ((nicheExampleTable.filter fun r => r.popularity < 50).length) = 2 by decide]
  rw [show nicheExampleTable.length = 4 by decide]
  norm_num

/-! ## Window-filter lemmas for the collector -/

theorem filterW_upsertTrack_same (t : List TrackRow) (r : TrackRow) (w : String)
    (h : r.time_range = w) :
    (upsertTrack t r).filter (fun x => x.time_range = w)
      = upsertTrack (t.filter fun x => x.time_range = w) r := by
  unfold upsertTrack
  rw [List.filter_append, List.filter_filter, List.filter_filter]
  congr 1
  · apply List.filter_congr
    intro a _
    exact Bool.and_comm _ _
  · simp [h]

theorem filterW_upsertTrack_other (t : List TrackRow) (r : TrackRow) (w : String)
    (h : r.time_range ≠ w) :
    (upsertTrack t r).filter (fun x => x.time_range = w)
      = t.filter (fun x => x.time_range = w) := by
  unfold upsertTrack
  rw [List.filter_append, List.filter_filter]
  have h2 : (t.filter fun x => decide (x.time_range = w)
        && decide (¬(x.track_id = r.track_id ∧ x.time_range = r.time_range)))
      = t.filter (fun x => x.time_range = w) := by
    apply List.filter_congr
    intro a _
    by_cases hw : a.time_range = w
    · simp [hw]
      exact Or.inr fun he => h he.symm
    · simp [hw]
  rw [h2]
  have h3 : ([r].filter fun x => x.time_range = w) = [] := by
    simp [h]
  rw [h3, List.append_nil]

theorem filterW_upsertArtist_same (t : List ArtistRow) (r : ArtistRow) (w : String)
    (h : r.time_range = w) :
    (upsertArtist t r).filter (fun x => x.time_range = w)
      = upsertArtist (t.filter fun x => x.time_range = w) r := by
  unfold upsertArtist
  rw [List.filter_append, List.filter_filter, List.filter_filter]
  congr 1
  · apply List.filter_congr
    intro a _
    exact Bool.and_comm _ _
  · simp [h]

theorem filterW_upsertArtist_other (t : List ArtistRow) (r : ArtistRow) (w : String)
    (h : r.time_range ≠ w) :
    (upsertArtist t r).filter (fun x => x.time_range = w)
      = t.filter (fun x => x.time_range = w) := by
  unfold upsertArtist
  rw [List.filter_append, List.filter_filter]
  have h2 : (t.filter fun x => decide (x.time_range = w)
        && decide (¬(x.artist_name = r.artist_name ∧ x.time_range = r.time_range)))
      = t.filter (fun x => x.time_range = w) := by
    apply List.filter_congr
    intro a _
    by_cases hw : a.time_range = w
    · simp [hw]
      exact Or.inr fun he => h he.symm
    · simp [hw]
  rw [h2]
  have h3 : ([r].filter fun x => x.time_range = w) = [] := by
    simp [h]
  rw [h3, List.append_nil]

theorem filterW_foldl_upsertTrack_same (rs : List TrackRow) (t0 : List TrackRow) (w : String)
    (h : ∀ r ∈ rs, r.time_range = w) :
    (rs.foldl upsertTrack t0).filter (fun x => x.time_range = w)
      = rs.foldl upsertTrack (t0.filter fun x => x.time_range = w) := by
  induction rs generalizing t0 with
  | nil => rfl
  | cons r rs ih =>
    rw [List.foldl_cons, List.foldl_cons,
      ih _ (fun x hx => h x (List.mem_cons_of_mem _ hx)),
      filterW_upsertTrack_same t0 r w (h r (List.mem_cons_self _ _))]

theorem filterW_foldl_upsertTrack_other (rs : List TrackRow) (t0 : List TrackRow) (w : String)
    (h : ∀ r ∈ rs, r.time_range ≠ w) :
    (rs.foldl upsertTrack t0).filter (fun x => x.time_range = w)
      = t0.filter (fun x => x.time_range = w) := by
  induction rs generalizing t0 with
  | nil => rfl
  | cons r rs ih =>
    rw [List.foldl_cons, ih _ (fun x hx => h x (List.mem_cons_of_mem _ hx)),
      filterW_upsertTrack_other t0 r w (h r (List.mem_cons_self _ _))]

theorem filterW_foldl_upsertArtist_same (rs : List ArtistRow) (t0 : List ArtistRow) (w : String)
    (h : ∀ r ∈ rs, r.time_range = w) :
    (rs.foldl upsertArtist t0).filter (fun x => x.time_range = w)
      = rs.foldl upsertArtist (t0.filter fun x => x.time_range = w) := by
  induction rs generalizing t0 with
  | nil => rfl
  | cons r rs ih =>
    rw [List.foldl_cons, List.foldl_cons,
      ih _ (fun x hx => h x (List.mem_cons_of_mem _ hx)),
      filterW_upsertArtist_same t0 r w (h r (List.mem_cons_self _ _))]

theorem filterW_foldl_upsertArtist_other (rs : List ArtistRow) (t0 : List ArtistRow) (w : String)
    (h : ∀ r ∈ rs, r.time_range ≠ w) :
    (rs.foldl upsertArtist t0).filter (fun x => x.time_range = w)
      = t0.filter (fun x => x.time_range = w) := by
  induction rs generalizing t0 with
  | nil => rfl
  | cons r rs ih =>
    rw [List.foldl_cons, ih _ (fun x hx => h x (List.mem_cons_of_mem _ hx)),
      filterW_upsertArtist_other t0 r w (h r (List.mem_cons_self _ _))]

theorem processWindow_tracks (db : LiveDB) (v cd : String) (items : List Item) :
    (processWindow db v cd items).tracks = (windowRows v cd items).foldl upsertTrack db.tracks := by
  unfold processWindow windowRows
  rw [List.foldl_map]

theorem processWindow_artists (db : LiveDB) (v cd : String) (items : List Item) :
    (processWindow db v cd items).artists
      = (windowArtistRows v cd items).foldl upsertArtist db.artists := by
  unfold processWindow windowArtistRows
  rw [List.foldl_map]

theorem windowRows_time_range (v cd : String) (items : List Item) :
    ∀ r ∈ windowRows v cd items, r.time_range = v := by
  intro r hr
  rcases List.mem_map.mp hr with ⟨p, _, rfl⟩
  rfl

theorem windowArtistRows_time_range (v cd : String) (items : List Item) :
    ∀ r ∈ windowArtistRows v cd items, r.time_range = v := by
  intro r hr
  rcases List.mem_map.mp hr with ⟨p, _, rfl⟩
  rfl

theorem collectStep_filterW_other (f : String → Except String (List Item)) (cd : String)
    (st : LiveDB × List (String × String)) (v w : String) (hvw : v ≠ w) :
    ((collectStep f cd st v).1.tracks.filter fun x => x.time_range = w)
      = st.1.tracks.filter (fun x => x.time_range = w)
    ∧ ((collectStep f cd st v).1.artists.filter fun x => x.time_range = w)
      = st.1.artists.filter (fun x => x.time_range = w) := by
  unfold collectStep
  cases f v with
  | ok items =>
    constructor
    · rw [processWindow_tracks]
      exact filterW_foldl_upsertTrack_other _ _ _
        (fun r hr => (windowRows_time_range v cd items r hr) ▸ hvw)
    · rw [processWindow_artists]
      exact filterW_foldl_upsertArtist_other _ _ _
        (fun r hr => (windowArtistRows_time_range v cd items r hr) ▸ hvw)
  | error e => exact ⟨rfl, rfl⟩

theorem collectStep_filterW_ok (f : String → Except String (List Item)) (cd : String)
    (st : LiveDB × List (String × String)) (w : String) (items : List Item)
    (hfw : f w = Except.ok items) :
    ((collectStep f cd st w).1.tracks.filter fun x => x.time_range = w)
      = (windowRows w cd items).foldl upsertTrack (st.1.tracks.filter fun x => x.time_range = w)
    ∧ ((collectStep f cd st w).1.artists.filter fun x => x.time_range = w)
      = (windowArtistRows w cd items).foldl upsertArtist
          (st.1.artists.filter fun x => x.time_range = w) := by
  unfold collectStep
  rw [hfw]
  constructor
  · rw [processWindow_tracks]
    exact filterW_foldl_upsertTrack_same _ _ _ (windowRows_time_range w cd items)
  · rw [processWindow_artists]
    exact filterW_foldl_upsertArtist_same _ _ _ (windowArtistRows_time_range w cd items)

theorem collectStep_state_err (f : String → Except String (List Item)) (cd : String)
    (st : LiveDB × List (String × String)) (w : String) (e : String)
    (hfw : f w = Except.error e) :
    (collectStep f cd st w).1 = st.1 := by
  unfold collectStep
  rw [hfw]

theorem collectStep_errors (f : String → Except String (List Item)) (cd : String)
    (st : LiveDB × List (String × String)) (w : String) :
    (collectStep f cd st w).2 = st.2 ++ okErr f w := by
  unfold collectStep okErr
  cases f w with
  | ok items => rw [List.append_nil]
  | error e => rfl

theorem fetchListeningData_eq (f : String → Except String (List Item)) (cd : String)
    (db : LiveDB) :
    fetchListeningData f cd db
      = collectStep f cd (collectStep f cd (collectStep f cd (db, []) "short_term")
          "medium_term") "long_term" := rfl

/-- Over any starting database, the final content of one window is a
function of that window's fetch outcome and the initial content of that
window alone. -/
theorem run_filterW_ok (f : String → Except String (List Item)) (cd : String) (db : LiveDB)
    (w : String) (items : List Item) (hw : w ∈ timePeriods) (hfw : f w = Except.ok items) :
    ((fetchListeningData f cd db).1.tracks.filter fun x => x.time_range = w)
      = (windowRows w cd items).foldl upsertTrack (db.tracks.filter fun x => x.time_range = w)
    ∧ ((fetchListeningData f cd db).1.artists.filter fun x => x.time_range = w)
      = (windowArtistRows w cd items).foldl upsertArtist
          (db.artists.filter fun x => x.time_range = w) := by
  rw [fetchListeningData_eq]
  have hw3 : w = "short_term" ∨ w = "medium_term" ∨ w = "long_term" := by
    simpa [timePeriods] using hw
  rcases hw3 with rfl | rfl | rfl
  · have h3 := collectStep_filterW_other f cd
      (collectStep f cd (collectStep f cd (db, []) "short_term") "medium_term")
      "long_term" "short_term" (by decide)
    have h2 := collectStep_filterW_other f cd
      (collectStep f cd (db, []) "short_term") "medium_term" "short_term" (by decide)
    have h1 := collectStep_filterW_ok f cd (db, []) "short_term" items hfw
    exact ⟨(h3.1.trans h2.1).trans h1.1, (h3.2.trans h2.2).trans h1.2⟩
  · have h3 := collectStep_filterW_other f cd
      (collectStep f cd (collectStep f cd (db, []) "short_term") "medium_term")
      "long_term" "medium_term" (by decide)
    have h2 := collectStep_filterW_ok f cd
      (collectStep f cd (db, []) "short_term") "medium_term" items hfw
    have h1 := collectStep_filterW_other f cd (db, []) "short_term" "medium_term" (by decide)
    constructor
    · rw [h3.1, h2.1, h1.1]
    · rw [h3.2, h2.2, h1.2]
  · have h3 := collectStep_filterW_ok f cd
      (collectStep f cd (collectStep f cd (db, []) "short_term") "medium_term")
      "long_term" items hfw
    have h2 := collectStep_filterW_other f cd
      (collectStep f cd (db, []) "short_term") "medium_term" "long_term" (by decide)
    have h1 := collectStep_filterW_other f cd (db, []) "short_term" "long_term" (by decide)
    constructor
    · rw [h3.1, h2.1, h1.1]
    · rw [h3.2, h2.2, h1.2]

/-- A window whose fetch failed keeps exactly its previous live content. -/
theorem run_filterW_err (f : String → Except String (List Item)) (cd : String) (db : LiveDB)
    (w : String) (e : String) (hw : w ∈ timePeriods) (hfw : f w = Except.error e) :
    ((fetchListeningData f cd db).1.tracks.filter fun x => x.time_range = w)
      = db.tracks.filter (fun x => x.time_range = w)
    ∧ ((fetchListeningData f cd db).1.artists.filter fun x => x.time_range = w)
      = db.artists.filter (fun x => x.time_range = w) := by
  rw [fetchListeningData_eq]
  have hw3 : w = "short_term" ∨ w = "medium_term" ∨ w = "long_term" := by
    simpa [timePeriods] using hw
  have herr : ∀ st : LiveDB × List (String × String), (collectStep f cd st w).1 = st.1 :=
    fun st => collectStep_state_err f cd st w e hfw
  rcases hw3 with rfl | rfl | rfl
  · have h3 := collectStep_filterW_other f cd
      (collectStep f cd (collectStep f cd (db, []) "short_term") "medium_term")
      "long_term" "short_term" (by decide)
    have h2 := collectStep_filterW_other f cd
      (collectStep f cd (db, []) "short_term") "medium_term" "short_term" (by decide)
    constructor
    · rw [h3.1, h2.1, herr (db, [])]
    · rw [h3.2, h2.2, herr (db, [])]
  · have h3 := collectStep_filterW_other f cd
      (collectStep f cd (collectStep f cd (db, []) "short_term") "medium_term")
      "long_term" "medium_term" (by decide)
    have h1 := collectStep_filterW_other f cd (db, []) "short_term" "medium_term" (by decide)
    constructor
    · rw [h3.1, herr (collectStep f cd (db, []) "short_term"), h1.1]
    · rw [h3.2, herr (collectStep f cd (db, []) "short_term"), h1.2]
  · have h2 := collectStep_filterW_other f cd
      (collectStep f cd (db, []) "short_term") "medium_term" "long_term" (by decide)
    have h1 := collectStep_filterW_other f cd (db, []) "short_term" "long_term" (by decide)
    constructor
    · rw [herr (collectStep f cd (collectStep f cd (db, []) "short_term") "medium_term"),
        h2.1, h1.1]
    · rw [herr (collectStep f cd (collectStep f cd (db, []) "short_term") "medium_term"),
        h2.2, h1.2]

/-- The surfaced errors are exactly the per-window fetch errors, in window
order. -/
theorem run_errors (f : String → Except String (List Item)) (cd : String) (db : LiveDB) :
    (fetchListeningData f cd db).2
      = okErr f "short_term" ++ okErr f "medium_term" ++ okErr f "long_term" := by
  rw [fetchListeningData_eq, collectStep_errors, collectStep_errors, collectStep_errors]
  rfl

/-- C9: when some windows fail upstream, each failing window is skipped
(its live slice is untouched) with its error surfaced alone, while each
succeeding window ends with exactly the rows it would have ended with in a
run where the other windows had not failed. -/
theorem collector_partial_failure (f g : String → Except String (List Item)) (cd : String)
    (db : LiveDB)
    (hagree : ∀ w items, f w = Except.ok items → g w = Except.ok items) :
    (∀ w ∈ timePeriods, ∀ items, f w = Except.ok items →
      ((fetchListeningData f cd db).1.tracks.filter fun x => x.time_range = w)
        = ((fetchListeningData g cd db).1.tracks.filter fun x => x.time_range = w)
      ∧ ((fetchListeningData f cd db).1.artists.filter fun x => x.time_range = w)
        = ((fetchListeningData g cd db).1.artists.filter fun x => x.time_range = w))
    ∧ (∀ w ∈ timePeriods, ∀ e, f w = Except.error e →
      ((fetchListeningData f cd db).1.tracks.filter fun x => x.time_range = w)
        = db.tracks.filter (fun x => x.time_range = w)
      ∧ ((fetchListeningData f cd db).1.artists.filter fun x => x.time_range = w)
        = db.artists.filter (fun x => x.time_range = w)
      ∧ (w, e) ∈ (fetchListeningData f cd db).2) := by
  constructor
  · intro w hw items hfw
    obtain ⟨t1, a1⟩ := run_filterW_ok f cd db w items hw hfw
    obtain ⟨t2, a2⟩ := run_filterW_ok g cd db w items hw (hagree w items hfw)
    exact ⟨t1.trans t2.symm, a1.trans a2.symm⟩
  · intro w hw e hfw
    obtain ⟨t1, a1⟩ := run_filterW_err f cd db w e hw hfw
    refine ⟨t1, a1, ?_⟩
    rw [run_errors]
    have hw3 : w = "short_term" ∨ w = "medium_term" ∨ w = "long_term" := by
      simpa [timePeriods] using hw
    rcases hw3 with rfl | rfl | rfl <;> simp [okErr, hfw]

/-- Witness for C9: a run whose medium window fails leaves the short window
with the same rows as the fully successful run, and surfaces the medium
error. -/
theorem collector_partial_failure_witness :
    ((∀ w items, exFetchFail w = Except.ok items → exFetch1 w = Except.ok items)
      ∧ "short_term" ∈ timePeriods ∧ exFetchFail "short_term" = Except.ok [exItemA])
    ∧ ((fetchListeningData exFetchFail "d1" emptyLiveDB).1.tracks.filter
          fun x => x.time_range = "short_term")
      = ((fetchListeningData exFetch1 "d1" emptyLiveDB).1.tracks.filter
          fun x => x.time_range = "short_term")
    ∧ ("medium_term", "boom") ∈ (fetchListeningData exFetchFail "d1" emptyLiveDB).2 := by
  have hagree : ∀ w items, exFetchFail w = Except.ok items → exFetch1 w = Except.ok items := by
    intro w items h
    by_cases hm : w = "medium_term"
    · rw [exFetchFail, if_pos hm] at h
      exact absurd h (by intro hc; cases hc)
    · rw [exFetchFail, if_neg hm] at h
      exact h
  refine ⟨⟨hagree, by decide, rfl⟩, ?_, ?_⟩
  · exact ((collector_partial_failure exFetchFail exFetch1 "d1" emptyLiveDB hagree).1
      "short_term" (by decide) [exItemA] rfl).1
  · exact ((collector_partial_failure exFetchFail exFetch1 "d1" emptyLiveDB hagree).2
      "medium_term" (by decide) "boom" rfl).2.2

/-! ## The `artist_stats` groupby specification -/

theorem artistStats_eq_statsFold (items : List Item) :
    artistStats items = statsFold (ranked items) := rfl

theorem statsFold_append_one (l : List (Nat × Item)) (x : Nat × Item) :
    statsFold (l ++ [x]) = updateStats (statsFold l) (pKey x) x.2.popularity x.1 := by
  unfold statsFold
  rw [List.foldl_append]
  rfl

/-- The accumulated `artist_stats` has one entry per distinct first-artist
name, whose count, popularity total and rank list are exactly those of the
ranked items attributed to that artist. -/
theorem statsFold_spec (l : List (Nat × Item)) :
    ((statsFold l).map Prod.fst).Nodup
    ∧ (∀ a : String, a ∈ (statsFold l).map Prod.fst ↔ a ∈ l.map pKey)
    ∧ ∀ q ∈ statsFold l,
        q.2.count = (l.filter fun p => pKey p = q.1).length
        ∧ q.2.total_pop = ((l.filter fun p => pKey p = q.1).map fun p => p.2.popularity).sum
        ∧ q.2.ranks = (l.filter fun p => pKey p = q.1).map Prod.fst := by
  induction l using List.reverseRecOn with
  | nil =>
    refine ⟨List.Pairwise.nil, ?_, ?_⟩
    · intro a
      simp [statsFold]
    · intro q hq
      exact absurd hq (by simp [statsFold])
  | append_singleton l x ih =>
    obtain ⟨ihnd, ihiff, ihq⟩ := ih
    rw [statsFold_append_one]
    rw [updateStats]
    by_cases hk : pKey x ∈ (statsFold l).map Prod.fst
    · rw [if_pos hk]
      have hkeys : (((statsFold l).map fun p =>
            if p.1 = pKey x
            then (p.1, (⟨p.2.count + 1, p.2.total_pop + x.2.popularity,
                p.2.ranks ++ [x.1]⟩ : AStats))
            else p).map Prod.fst)
          = (statsFold l).map Prod.fst := by
        rw [List.map_map]
        apply List.map_congr_left
        intro p _
        by_cases hp : p.1 = pKey x <;> simp [hp]
      refine ⟨?_, ?_, ?_⟩
      · rw [hkeys]
        exact ihnd
      · intro a
        rw [hkeys]
        simp only [List.map_append, List.mem_append, List.map_cons, List.map_nil,
          List.mem_singleton]
        constructor
        · intro ha
          exact Or.inl ((ihiff a).mp ha)
        · rintro (ha | rfl)
          · exact (ihiff a).mpr ha
          · exact hk
      · intro q' hq'
        rcases List.mem_map.mp hq' with ⟨q, hq, rfl⟩
        obtain ⟨hc, hp, hr⟩ := ihq q hq
        by_cases hqk : q.1 = pKey x
        · rw [if_pos hqk]
          have hfil : ((l ++ [x]).filter fun p => pKey p = q.1)
              = (l.filter fun p => pKey p = q.1) ++ [x] := by
            rw [List.filter_append]
            congr 1
            simp [hqk.symm]
          refine ⟨?_, ?_, ?_⟩
          · simp [hfil, hc]
          · simp [hfil, hp]
          · simp [hfil, hr]
        · rw [if_neg hqk]
          have hfil : ((l ++ [x]).filter fun p => pKey p = q.1)
              = l.filter fun p => pKey p = q.1 := by
            rw [List.filter_append]
            have hxk : ¬(pKey x = q.1) := fun h => hqk h.symm
            have hx : ([x].filter fun p => pKey p = q.1) = [] := by
              simp [hxk]
            rw [hx, List.append_nil]
          rw [hfil]
          exact ⟨hc, hp, hr⟩
    · rw [if_neg hk]
      refine ⟨?_, ?_, ?_⟩
      · rw [List.map_append]
        rw [List.nodup_append]
        refine ⟨ihnd, List.nodup_singleton _, ?_⟩
        intro a ha hax
        simp only [List.map_cons, List.map_nil, List.mem_singleton] at hax
        rw [hax] at ha
        exact hk ha
      · intro a
        simp only [List.map_append, List.mem_append, List.map_cons, List.map_nil,
          List.mem_singleton]
        exact or_congr (ihiff a) Iff.rfl
      · intro q' hq'
        rcases List.mem_append.mp hq' with hq | hq
        · obtain ⟨hc, hp, hr⟩ := ihq q' hq
          have hq'k : ¬(pKey x = q'.1) := by
            intro he
            exact hk (he ▸ List.mem_map.mpr ⟨q', hq, rfl⟩)
          have hfil : ((l ++ [x]).filter fun p => pKey p = q'.1)
              = l.filter fun p => pKey p = q'.1 := by
            rw [List.filter_append]
            have hx : ([x].filter fun p => pKey p = q'.1) = [] := by
              simp [hq'k]
            rw [hx, List.append_nil]
          rw [hfil]
          exact ⟨hc, hp, hr⟩
        · have hq2 : q' = (pKey x, (⟨1, x.2.popularity, [x.1]⟩ : AStats)) :=
            List.mem_singleton.mp hq
          subst hq2
          have hfl : (l.filter fun p => pKey p = pKey x) = [] := by
            rw [List.filter_eq_nil_iff]
            intro p hp2 hpk
            simp only [decide_eq_true_eq] at hpk
            exact hk ((ihiff (pKey x)).mpr (List.mem_map.mpr ⟨p, hp2, hpk⟩))
          have hfil : ((l ++ [x]).filter fun p => pKey p = pKey x) = [x] := by
            rw [List.filter_append, hfl, List.nil_append]
            simp
          refine ⟨?_, ?_, ?_⟩
          · rw [hfil]
            rfl
          · rw [hfil]
            simp
          · rw [hfil]
            rfl

/-! ## Fresh-key upserts append -/

theorem upsertTrack_fresh (t0 : List TrackRow) (r : TrackRow)
    (h : ∀ x ∈ t0, ¬(x.track_id = r.track_id ∧ x.time_range = r.time_range)) :
    upsertTrack t0 r = t0 ++ [r] := by
  unfold upsertTrack
  rw [filter_eq_self_of_forall _ _ h]

theorem upsertArtist_fresh (t0 : List ArtistRow) (r : ArtistRow)
    (h : ∀ x ∈ t0, ¬(x.artist_name = r.artist_name ∧ x.time_range = r.time_range)) :
    upsertArtist t0 r = t0 ++ [r] := by
  unfold upsertArtist
  rw [filter_eq_self_of_forall _ _ h]

theorem foldl_upsertTrack_fresh (rs : List TrackRow) (t0 : List TrackRow)
    (hfresh : ∀ x ∈ t0, ∀ r ∈ rs, ¬(x.track_id = r.track_id ∧ x.time_range = r.time_range))
    (hnd : rs.Pairwise fun a b => ¬(a.track_id = b.track_id ∧ a.time_range = b.time_range)) :
    rs.foldl upsertTrack t0 = t0 ++ rs := by
  induction rs generalizing t0 with
  | nil => rw [List.foldl_nil, List.append_nil]
  | cons r rs ih =>
    rw [List.foldl_cons,
      upsertTrack_fresh t0 r (fun x hx => hfresh x hx r (List.mem_cons_self _ _)),
      ih (t0 ++ [r]) ?_ (List.Pairwise.of_cons hnd), List.append_assoc]
    · rfl
    · intro y hy r2 hr2
      rcases List.mem_append.mp hy with hy0 | hyr
      · exact hfresh y hy0 r2 (List.mem_cons_of_mem _ hr2)
      · rw [List.mem_singleton.mp hyr]
        exact List.rel_of_pairwise_cons hnd hr2

theorem foldl_upsertArtist_fresh (rs : List ArtistRow) (t0 : List ArtistRow)
    (hfresh : ∀ x ∈ t0, ∀ r ∈ rs, ¬(x.artist_name = r.artist_name ∧ x.time_range = r.time_range))
    (hnd : rs.Pairwise fun a b => ¬(a.artist_name = b.artist_name ∧ a.time_range = b.time_range)) :
    rs.foldl upsertArtist t0 = t0 ++ rs := by
  induction rs generalizing t0 with
  | nil => rw [List.foldl_nil, List.append_nil]
  | cons r rs ih =>
    rw [List.foldl_cons,
      upsertArtist_fresh t0 r (fun x hx => hfresh x hx r (List.mem_cons_self _ _)),
      ih (t0 ++ [r]) ?_ (List.Pairwise.of_cons hnd), List.append_assoc]
    · rfl
    · intro y hy r2 hr2
      rcases List.mem_append.mp hy with hy0 | hyr
      · exact hfresh y hy0 r2 (List.mem_cons_of_mem _ hr2)
      · rw [List.mem_singleton.mp hyr]
        exact List.rel_of_pairwise_cons hnd hr2

theorem windowRows_pairwise_key (w cd : String) (items : List Item)
    (hnd : (items.map (·.id)).Nodup) :
    (windowRows w cd items).Pairwise
      fun a b => ¬(a.track_id = b.track_id ∧ a.time_range = b.time_range) := by
  have hA : items.Pairwise fun a b => a.id ≠ b.id := List.pairwise_map.mp hnd
  have hB : items.enum.Pairwise fun p q => p.2.id ≠ q.2.id := by
    have hmap : (items.enum.map Prod.snd).Pairwise fun a b => a.id ≠ b.id := by
      rw [List.enum_map_snd]
      exact hA
    have hB2 := List.pairwise_map.mp hmap
    exact hB2
  have hC : (ranked items).Pairwise fun p q => p.2.id ≠ q.2.id := by
    unfold ranked
    exact List.pairwise_map.mpr hB
  unfold windowRows
  apply List.pairwise_map.mpr
  exact hC.imp fun hpq hc => hpq hc.1

theorem windowArtistRows_pairwise_key (w cd : String) (items : List Item) :
    (windowArtistRows w cd items).Pairwise
      fun a b => ¬(a.artist_name = b.artist_name ∧ a.time_range = b.time_range) := by
  have hnd := (statsFold_spec (ranked items)).1
  unfold windowArtistRows
  rw [artistStats_eq_statsFold]
  apply List.pairwise_map.mpr
  have hP : (statsFold (ranked items)).Pairwise fun q1 q2 => q1.1 ≠ q2.1 :=
    List.pairwise_map.mp hnd
  exact hP.imp fun h hc => h hc.1

theorem processWindow_append (db : LiveDB) (w cd : String) (items : List Item)
    (htr : ∀ x ∈ db.tracks, x.time_range ≠ w)
    (har : ∀ x ∈ db.artists, x.time_range ≠ w)
    (hnd : (items.map (·.id)).Nodup) :
    processWindow db w cd items
      = ⟨db.tracks ++ windowRows w cd items, db.artists ++ windowArtistRows w cd items⟩ := by
  have h1 : (processWindow db w cd items).tracks = db.tracks ++ windowRows w cd items := by
    rw [processWindow_tracks]
    apply foldl_upsertTrack_fresh
    · intro x hx r hr hc
      exact htr x hx (hc.2.trans (windowRows_time_range w cd items r hr))
    · exact windowRows_pairwise_key w cd items hnd
  have h2 : (processWindow db w cd items).artists
      = db.artists ++ windowArtistRows w cd items := by
    rw [processWindow_artists]
    apply foldl_upsertArtist_fresh
    · intro x hx r hr hc
      exact har x hx (hc.2.trans (windowArtistRows_time_range w cd items r hr))
    · exact windowArtistRows_pairwise_key w cd items
  calc processWindow db w cd items
      = ⟨(processWindow db w cd items).tracks, (processWindow db w cd items).artists⟩ := rfl
    _ = ⟨db.tracks ++ windowRows w cd items, db.artists ++ windowArtistRows w cd items⟩ := by
        rw [h1, h2]

theorem okRows_time_range (f : String → Except String (List Item)) (cd w : String) :
    ∀ r ∈ okRows f cd w, r.time_range = w := by
  unfold okRows
  cases f w with
  | ok items => exact windowRows_time_range w cd items
  | error e => intro r hr; exact absurd hr (List.not_mem_nil r)

theorem okArtistRows_time_range (f : String → Except String (List Item)) (cd w : String) :
    ∀ r ∈ okArtistRows f cd w, r.time_range = w := by
  unfold okArtistRows
  cases f w with
  | ok items => exact windowArtistRows_time_range w cd items
  | error e => intro r hr; exact absurd hr (List.not_mem_nil r)

theorem collectStep_append (f : String → Except String (List Item)) (cd : String)
    (st : LiveDB × List (String × String)) (w : String)
    (htr : ∀ x ∈ st.1.tracks, x.time_range ≠ w)
    (har : ∀ x ∈ st.1.artists, x.time_range ≠ w)
    (hnd : ∀ items, f w = Except.ok items → (items.map (·.id)).Nodup) :
    (collectStep f cd st w).1
      = ⟨st.1.tracks ++ okRows f cd w, st.1.artists ++ okArtistRows f cd w⟩ := by
  unfold collectStep okRows okArtistRows
  cases hfw : f w with
  | ok items => exact processWindow_append st.1 w cd items htr har (hnd items hfw)
  | error e =>
    calc st.1 = ⟨st.1.tracks, st.1.artists⟩ := rfl
      _ = ⟨st.1.tracks ++ [], st.1.artists ++ []⟩ := by rw [List.append_nil, List.append_nil]

/-- From empty live tables, a collector run produces exactly the
concatenation of the three windows' contributions. -/
theorem run_shape (f : String → Except String (List Item)) (cd : String)
    (hnd : ∀ w items, f w = Except.ok items → (items.map (·.id)).Nodup) :
    (fetchListeningData f cd emptyLiveDB).1
      = ⟨okRows f cd "short_term" ++ okRows f cd "medium_term" ++ okRows f cd "long_term",
         okArtistRows f cd "short_term" ++ okArtistRows f cd "medium_term"
           ++ okArtistRows f cd "long_term"⟩ := by
  rw [fetchListeningData_eq]
  have e1 : (collectStep f cd (emptyLiveDB, []) "short_term").1
      = ⟨[] ++ okRows f cd "short_term", [] ++ okArtistRows f cd "short_term"⟩ :=
    collectStep_append f cd (emptyLiveDB, []) "short_term"
      (fun x hx => absurd hx (List.not_mem_nil x))
      (fun x hx => absurd hx (List.not_mem_nil x))
      (fun items h => hnd _ items h)
  have e2 : (collectStep f cd (collectStep f cd (emptyLiveDB, []) "short_term")
        "medium_term").1
      = ⟨([] ++ okRows f cd "short_term") ++ okRows f cd "medium_term",
         ([] ++ okArtistRows f cd "short_term") ++ okArtistRows f cd "medium_term"⟩ := by
    have := collectStep_append f cd (collectStep f cd (emptyLiveDB, []) "short_term")
      "medium_term" ?_ ?_ (fun items h => hnd _ items h)
    · rw [this, e1]
    · intro x hx
      rw [e1] at hx
      simp only [List.nil_append] at hx
      rw [okRows_time_range f cd "short_term" x hx]
      decide
    · intro x hx
      rw [e1] at hx
      simp only [List.nil_append] at hx
      rw [okArtistRows_time_range f cd "short_term" x hx]
      decide
  have e3 : (collectStep f cd (collectStep f cd (collectStep f cd (emptyLiveDB, [])
        "short_term") "medium_term") "long_term").1
      = ⟨(([] ++ okRows f cd "short_term") ++ okRows f cd "medium_term")
            ++ okRows f cd "long_term",
         (([] ++ okArtistRows f cd "short_term") ++ okArtistRows f cd "medium_term")
            ++ okArtistRows f cd "long_term"⟩ := by
    have := collectStep_append f cd
      (collectStep f cd (collectStep f cd (emptyLiveDB, []) "short_term") "medium_term")
      "long_term" ?_ ?_ (fun items h => hnd _ items h)
    · rw [this, e2]
    · intro x hx
      rw [e2] at hx
      simp only [List.nil_append] at hx
      rcases List.mem_append.mp hx with hx2 | hx2
      · rw [okRows_time_range f cd "short_term" x hx2]
        decide
      · rw [okRows_time_range f cd "medium_term" x hx2]
        decide
    · intro x hx
      rw [e2] at hx
      simp only [List.nil_append] at hx
      rcases List.mem_append.mp hx with hx2 | hx2
      · rw [okArtistRows_time_range f cd "short_term" x hx2]
        decide
      · rw [okArtistRows_time_range f cd "medium_term" x hx2]
        decide
  rw [e3]
  rw [List.nil_append, List.nil_append]

theorem filter_window_concat (f : String → Except String (List Item)) (cd v : String)
    (hv : v ∈ timePeriods) :
    ((okRows f cd "short_term" ++ okRows f cd "medium_term"
        ++ okRows f cd "long_term").filter fun r => r.time_range = v)
      = okRows f cd v := by
  have hself : ((okRows f cd v).filter fun r => r.time_range = v) = okRows f cd v :=
    filter_eq_self_of_forall _ _ (okRows_time_range f cd v)
  have hnil : ∀ w, w ≠ v → ((okRows f cd w).filter fun r => r.time_range = v) = [] := by
    intro w hne
    rw [List.filter_eq_nil_iff]
    intro r hr
    simp only [decide_eq_true_eq]
    rw [okRows_time_range f cd w r hr]
    exact hne
  have hv3 : v = "short_term" ∨ v = "medium_term" ∨ v = "long_term" := by
    simpa [timePeriods] using hv
  rcases hv3 with rfl | rfl | rfl
  · rw [List.filter_append, List.filter_append, hself,
      hnil "medium_term" (by decide), hnil "long_term" (by decide),
      List.append_nil, List.append_nil]
  · rw [List.filter_append, List.filter_append, hself,
      hnil "short_term" (by decide), hnil "long_term" (by decide),
      List.nil_append, List.append_nil]
  · rw [List.filter_append, List.filter_append, hself,
      hnil "short_term" (by decide), hnil "medium_term" (by decide),
      List.nil_append, List.nil_append]

theorem filter_artist_concat (f : String → Except String (List Item)) (cd v : String)
    (hv : v ∈ timePeriods) (name : String) :
    ((okRows f cd "short_term" ++ okRows f cd "medium_term"
        ++ okRows f cd "long_term").filter
          fun r => r.artist_name = name ∧ r.time_range = v)
      = (okRows f cd v).filter fun r => r.artist_name = name ∧ r.time_range = v := by
  have hnil : ∀ w, w ≠ v →
      ((okRows f cd w).filter fun r => r.artist_name = name ∧ r.time_range = v) = [] := by
    intro w hne
    rw [List.filter_eq_nil_iff]
    intro r hr
    simp only [decide_eq_true_eq, not_and]
    intro _
    rw [okRows_time_range f cd w r hr]
    exact hne
  have hv3 : v = "short_term" ∨ v = "medium_term" ∨ v = "long_term" := by
    simpa [timePeriods] using hv
  rcases hv3 with rfl | rfl | rfl
  · rw [List.filter_append, List.filter_append,
      hnil "medium_term" (by decide), hnil "long_term" (by decide),
      List.append_nil, List.append_nil]
  · rw [List.filter_append, List.filter_append,
      hnil "short_term" (by decide), hnil "long_term" (by decide),
      List.nil_append, List.append_nil]
  · rw [List.filter_append, List.filter_append,
      hnil "short_term" (by decide), hnil "medium_term" (by decide),
      List.nil_append, List.nil_append]

/-- One window's artist rows are in sync with that run's track rows. -/
theorem collector_sync_one (f : String → Except String (List Item)) (cd v : String)
    (hv : v ∈ timePeriods) (ar : ArtistRow) (har : ar ∈ okArtistRows f cd v) :
    ar.track_count = ((okRows f cd "short_term" ++ okRows f cd "medium_term"
        ++ okRows f cd "long_term").filter
          fun r => r.artist_name = ar.artist_name ∧ r.time_range = ar.time_range).length
    ∧ ar.total_popularity = (((okRows f cd "short_term" ++ okRows f cd "medium_term"
        ++ okRows f cd "long_term").filter
          fun r => r.artist_name = ar.artist_name ∧ r.time_range = ar.time_range).map
            fun r => r.popularity).sum
    ∧ ar.avg_rank = ratAvg (((okRows f cd "short_term" ++ okRows f cd "medium_term"
        ++ okRows f cd "long_term").filter
          fun r => r.artist_name = ar.artist_name ∧ r.time_range = ar.time_range).map
            fun r => r.rank_position) := by
  unfold okArtistRows at har
  cases hfv : f v with
  | error e =>
    rw [hfv] at har
    exact absurd har (List.not_mem_nil ar)
  | ok items =>
    rw [hfv] at har
    unfold windowArtistRows at har
    rcases List.mem_map.mp har with ⟨q, hq, rfl⟩
    rw [artistStats_eq_statsFold] at hq
    obtain ⟨hc, hp2, hr⟩ := (statsFold_spec (ranked items)).2.2 q hq
    have hok : okRows f cd v = windowRows v cd items := by
      unfold okRows
      rw [hfv]
    simp only [mkArtistRow]
    rw [filter_artist_concat f cd v hv q.1, hok]
    have hfw2 : ((windowRows v cd items).filter
          fun r => r.artist_name = q.1 ∧ r.time_range = v)
        = (windowRows v cd items).filter fun r => r.artist_name = q.1 := by
      apply List.filter_congr
      intro r hr2
      have htr := windowRows_time_range v cd items r hr2
      simp [htr]
    rw [hfw2]
    unfold windowRows
    rw [List.filter_map]
    have hpred : ((ranked items).filter
          ((fun r : TrackRow => decide (r.artist_name = q.1))
            ∘ fun p => mkTrackRow v cd p.1 p.2))
        = (ranked items).filter fun p => pKey p = q.1 := by
      apply List.filter_congr
      intro p _
      rfl
    rw [hpred]
    refine ⟨?_, ?_, ?_⟩
    · rw [List.length_map]
      exact hc
    · rw [List.map_map]
      rw [show ((fun r : TrackRow => r.popularity) ∘ fun p : Nat × Item =>
          mkTrackRow v cd p.1 p.2) = fun p : Nat × Item => p.2.popularity from rfl]
      exact hp2
    · rw [List.map_map]
      rw [show ((fun r : TrackRow => r.rank_position) ∘ fun p : Nat × Item =>
          mkTrackRow v cd p.1 p.2) = (Prod.fst : Nat × Item → Nat) from rfl]
      rw [← hr]

/-- C5 amended: from empty live tables, and with each window's fetched items
carrying pairwise-distinct track ids, every artist row the Collector writes
has track count, popularity total and mean rank equal to the groupby of the
live tracks table, and each window's slice of the tracks table is exactly
that window's fetched rows.  (With a non-empty starting table, or duplicate
ids inside one window's response, the invariant fails — see the
counterexample.) -/
theorem collector_sync (f : String → Except String (List Item)) (cd : String)
    (hnd : ∀ w items, f w = Except.ok items → ((items.map (·.id)).Nodup)) :
    (∀ ar ∈ (fetchListeningData f cd emptyLiveDB).1.artists,
        ar.track_count = ((fetchListeningData f cd emptyLiveDB).1.tracks.filter
            fun r => r.artist_name = ar.artist_name ∧ r.time_range = ar.time_range).length
        ∧ ar.total_popularity = (((fetchListeningData f cd emptyLiveDB).1.tracks.filter
            fun r => r.artist_name = ar.artist_name ∧ r.time_range = ar.time_range).map
              fun r => r.popularity).sum
        ∧ ar.avg_rank = ratAvg (((fetchListeningData f cd emptyLiveDB).1.tracks.filter
            fun r => r.artist_name = ar.artist_name ∧ r.time_range = ar.time_range).map
              fun r => r.rank_position))
    ∧ (∀ w ∈ timePeriods, ∀ items, f w = Except.ok items →
        ((fetchListeningData f cd emptyLiveDB).1.tracks.filter fun r => r.time_range = w)
          = windowRows w cd items) := by
  have hshape := run_shape f cd hnd
  have hT : (fetchListeningData f cd emptyLiveDB).1.tracks
      = okRows f cd "short_term" ++ okRows f cd "medium_term" ++ okRows f cd "long_term" := by
    rw [hshape]
  have hA : (fetchListeningData f cd emptyLiveDB).1.artists
      = okArtistRows f cd "short_term" ++ okArtistRows f cd "medium_term"
          ++ okArtistRows f cd "long_term" := by
    rw [hshape]
  constructor
  · intro ar har
    rw [hA] at har
    rw [hT]
    rcases List.mem_append.mp har with h1 | h1
    · rcases List.mem_append.mp h1 with h2 | h2
      · exact collector_sync_one f cd "short_term" (by decide) ar h2
      · exact collector_sync_one f cd "medium_term" (by decide) ar h2
    · exact collector_sync_one f cd "long_term" (by decide) ar h1
  · intro w hw items hfw
    rw [hT, filter_window_concat f cd w hw]
    unfold okRows
    rw [hfw]

/-- C5 counterexample: after a second collector run (track `b` by P replacing
the fetch that had track `a` by P), the artists table says P has 1 track in
the short window while grouping the tracks table gives 2 (the stale row is
upserted over, never cleared); and a single run whose response repeats a
track id gives P a count of 2 against 1 actual row. -/
theorem collector_sync_counterexample :
    (∃ ar ∈ exRun2.artists, ar.artist_name = "P" ∧ ar.time_range = "short_term"
      ∧ ar.track_count = 1)
    ∧ (exRun2.tracks.filter
        fun r => r.artist_name = "P" ∧ r.time_range = "short_term").length = 2
    ∧ (∃ ar ∈ exRunDup.artists, ar.artist_name = "P" ∧ ar.time_range = "short_term"
      ∧ ar.track_count = 2)
    ∧ (exRunDup.tracks.filter
        fun r => r.artist_name = "P" ∧ r.time_range = "short_term").length = 1 := by
  decide

/-- Witness for the amended C5 at a concrete one-item fetch. -/
theorem collector_sync_witness :
    (∀ w items, exFetch1 w = Except.ok items → ((items.map (·.id)).Nodup))
    ∧ ((fetchListeningData exFetch1 "d1" emptyLiveDB).1.tracks.filter
        fun r => r.time_range = "short_term") = windowRows "short_term" "d1" [exItemA] := by
  have hnd : ∀ w items, exFetch1 w = Except.ok items → ((items.map (·.id)).Nodup) := by
    intro w items h
    by_cases hw : w = "short_term"
    · rw [exFetch1, if_pos hw] at h
      cases h
      decide
    · rw [exFetch1, if_neg hw] at h
      cases h
      decide
  exact ⟨hnd, (collector_sync exFetch1 "d1" hnd).2 "short_term" (by decide) [exItemA] rfl⟩

/-! ## Membership lemmas for the attribution claim -/

theorem mem_upsertTrack (t0 : List TrackRow) (r x : TrackRow) :
    x ∈ upsertTrack t0 r → x ∈ t0 ∨ x = r := by
  unfold upsertTrack
  intro hx
  rcases List.mem_append.mp hx with hx1 | hx1
  · exact Or.inl (List.mem_filter.mp hx1).1
  · exact Or.inr (List.mem_singleton.mp hx1)

theorem mem_upsertArtist (t0 : List ArtistRow) (r x : ArtistRow) :
    x ∈ upsertArtist t0 r → x ∈ t0 ∨ x = r := by
  unfold upsertArtist
  intro hx
  rcases List.mem_append.mp hx with hx1 | hx1
  · exact Or.inl (List.mem_filter.mp hx1).1
  · exact Or.inr (List.mem_singleton.mp hx1)

theorem mem_foldl_upsertTrack (rs : List TrackRow) (t0 : List TrackRow) (x : TrackRow) :
    x ∈ rs.foldl upsertTrack t0 → x ∈ t0 ∨ x ∈ rs := by
  induction rs generalizing t0 with
  | nil => exact fun hx => Or.inl hx
  | cons r rs ih =>
    intro hx
    rw [List.foldl_cons] at hx
    rcases ih (upsertTrack t0 r) hx with h | h
    · rcases mem_upsertTrack t0 r x h with h2 | h2
      · exact Or.inl h2
      · exact Or.inr (h2 ▸ List.mem_cons_self _ _)
    · exact Or.inr (List.mem_cons_of_mem _ h)

theorem mem_foldl_upsertArtist (rs : List ArtistRow) (t0 : List ArtistRow) (x : ArtistRow) :
    x ∈ rs.foldl upsertArtist t0 → x ∈ t0 ∨ x ∈ rs := by
  induction rs generalizing t0 with
  | nil => exact fun hx => Or.inl hx
  | cons r rs ih =>
    intro hx
    rw [List.foldl_cons] at hx
    rcases ih (upsertArtist t0 r) hx with h | h
    · rcases mem_upsertArtist t0 r x h with h2 | h2
      · exact Or.inl h2
      · exact Or.inr (h2 ▸ List.mem_cons_self _ _)
    · exact Or.inr (List.mem_cons_of_mem _ h)

theorem ranked_map_snd (items : List Item) : (ranked items).map Prod.snd = items := by
  unfold ranked
  rw [List.map_map]
  rw [List.map_congr_left (fun p _ => rfl :
    ∀ p ∈ items.enum, (Prod.snd ∘ fun q : Nat × Item => (q.1 + 1, q.2)) p = Prod.snd p)]
  exact List.enum_map_snd items

theorem mem_ranked_snd (items : List Item) (p : Nat × Item) (hp : p ∈ ranked items) :
    p.2 ∈ items := by
  have h2 : p.2 ∈ (ranked items).map Prod.snd := List.mem_map_of_mem Prod.snd hp
  rw [ranked_map_snd] at h2
  exact h2

theorem mem_windowRows_artist (w cd : String) (items : List Item) (x : TrackRow)
    (hx : x ∈ windowRows w cd items) :
    ∃ i ∈ items, x.artist_name = i.artists.headD "" := by
  rcases List.mem_map.mp hx with ⟨p, hp, rfl⟩
  exact ⟨p.2, mem_ranked_snd items p hp, rfl⟩

theorem mem_windowArtistRows_artist (w cd : String) (items : List Item) (ar : ArtistRow)
    (har : ar ∈ windowArtistRows w cd items) :
    ∃ i ∈ items, ar.artist_name = i.artists.headD "" := by
  unfold windowArtistRows at har
  rw [artistStats_eq_statsFold] at har
  rcases List.mem_map.mp har with ⟨q, hq, rfl⟩
  have hkey : q.1 ∈ (statsFold (ranked items)).map Prod.fst :=
    List.mem_map_of_mem Prod.fst hq
  have hhead : q.1 ∈ (ranked items).map pKey :=
    ((statsFold_spec (ranked items)).2.1 q.1).mp hkey
  rcases List.mem_map.mp hhead with ⟨p, hp, hpk⟩
  exact ⟨p.2, mem_ranked_snd items p hp, hpk.symm⟩

theorem mem_collectStep_tracks (f : String → Except String (List Item)) (cd : String)
    (st : LiveDB × List (String × String)) (w : String) (x : TrackRow)
    (hx : x ∈ (collectStep f cd st w).1.tracks) :
    x ∈ st.1.tracks ∨ ∃ items, f w = Except.ok items ∧ x ∈ windowRows w cd items := by
  unfold collectStep at hx
  cases hfw : f w with
  | ok items =>
    rw [hfw] at hx
    rw [processWindow_tracks] at hx
    rcases mem_foldl_upsertTrack _ _ _ hx with h | h
    · exact Or.inl h
    · exact Or.inr ⟨items, rfl, h⟩
  | error e =>
    rw [hfw] at hx
    exact Or.inl hx

theorem mem_collectStep_artists (f : String → Except String (List Item)) (cd : String)
    (st : LiveDB × List (String × String)) (w : String) (x : ArtistRow)
    (hx : x ∈ (collectStep f cd st w).1.artists) :
    x ∈ st.1.artists ∨ ∃ items, f w = Except.ok items ∧ x ∈ windowArtistRows w cd items := by
  unfold collectStep at hx
  cases hfw : f w with
  | ok items =>
    rw [hfw] at hx
    rw [processWindow_artists] at hx
    rcases mem_foldl_upsertArtist _ _ _ hx with h | h
    · exact Or.inl h
    · exact Or.inr ⟨items, rfl, h⟩
  | error e =>
    rw [hfw] at hx
    exact Or.inl hx

theorem mem_run_tracks (f : String → Except String (List Item)) (cd : String) (db : LiveDB)
    (x : TrackRow) (hx : x ∈ (fetchListeningData f cd db).1.tracks) :
    x ∈ db.tracks
    ∨ ∃ w items, w ∈ timePeriods ∧ f w = Except.ok items ∧ x ∈ windowRows w cd items := by
  rw [fetchListeningData_eq] at hx
  rcases mem_collectStep_tracks f cd _ "long_term" x hx with h3 | ⟨items, hfw, hin⟩
  · rcases mem_collectStep_tracks f cd _ "medium_term" x h3 with h2 | ⟨items, hfw, hin⟩
    · rcases mem_collectStep_tracks f cd _ "short_term" x h2 with h1 | ⟨items, hfw, hin⟩
      · exact Or.inl h1
      · exact Or.inr ⟨"short_term", items, by decide, hfw, hin⟩
    · exact Or.inr ⟨"medium_term", items, by decide, hfw, hin⟩
  · exact Or.inr ⟨"long_term", items, by decide, hfw, hin⟩

theorem mem_run_artists (f : String → Except String (List Item)) (cd : String) (db : LiveDB)
    (x : ArtistRow) (hx : x ∈ (fetchListeningData f cd db).1.artists) :
    x ∈ db.artists
    ∨ ∃ w items, w ∈ timePeriods ∧ f w = Except.ok items
        ∧ x ∈ windowArtistRows w cd items := by
  rw [fetchListeningData_eq] at hx
  rcases mem_collectStep_artists f cd _ "long_term" x hx with h3 | ⟨items, hfw, hin⟩
  · rcases mem_collectStep_artists f cd _ "medium_term" x h3 with h2 | ⟨items, hfw, hin⟩
    · rcases mem_collectStep_artists f cd _ "short_term" x h2 with h1 | ⟨items, hfw, hin⟩
      · exact Or.inl h1
      · exact Or.inr ⟨"short_term", items, by decide, hfw, hin⟩
    · exact Or.inr ⟨"medium_term", items, by decide, hfw, hin⟩
  · exact Or.inr ⟨"long_term", items, by decide, hfw, hin⟩

/-- C10: the track row built from an item carries exactly the first entry of
the item's artist list as `artist_name`, every artist name in either live
table written from empty is the first artist of some fetched item, and a
name that is never a first artist never appears in either table. -/
theorem first_artist_only (f : String → Except String (List Item)) (cd : String) :
    (∀ (w cd2 : String) (rank : Nat) (i : Item) (a : String) (rest : List String),
        i.artists = a :: rest → (mkTrackRow w cd2 rank i).artist_name = a)
    ∧ (∀ x ∈ (fetchListeningData f cd emptyLiveDB).1.tracks,
        ∃ w items i, w ∈ timePeriods ∧ f w = Except.ok items ∧ i ∈ items
          ∧ x.artist_name = i.artists.headD "")
    ∧ (∀ ar ∈ (fetchListeningData f cd emptyLiveDB).1.artists,
        ∃ w items i, w ∈ timePeriods ∧ f w = Except.ok items ∧ i ∈ items
          ∧ ar.artist_name = i.artists.headD "")
    ∧ (∀ b : String, (∀ w items i, w ∈ timePeriods → f w = Except.ok items → i ∈ items →
          i.artists.headD "" ≠ b) →
        (∀ x ∈ (fetchListeningData f cd emptyLiveDB).1.tracks, x.artist_name ≠ b)
        ∧ (∀ ar ∈ (fetchListeningData f cd emptyLiveDB).1.artists, ar.artist_name ≠ b)) := by
  have htr : ∀ x ∈ (fetchListeningData f cd emptyLiveDB).1.tracks,
      ∃ w items i, w ∈ timePeriods ∧ f w = Except.ok items ∧ i ∈ items
        ∧ x.artist_name = i.artists.headD "" := by
    intro x hx
    rcases mem_run_tracks f cd emptyLiveDB x hx with h | ⟨w, items, hw, hfw, hin⟩
    · exact absurd h (List.not_mem_nil x)
    · rcases mem_windowRows_artist w cd items x hin with ⟨i, hi, he⟩
      exact ⟨w, items, i, hw, hfw, hi, he⟩
  have har : ∀ ar ∈ (fetchListeningData f cd emptyLiveDB).1.artists,
      ∃ w items i, w ∈ timePeriods ∧ f w = Except.ok items ∧ i ∈ items
        ∧ ar.artist_name = i.artists.headD "" := by
    intro ar hx
    rcases mem_run_artists f cd emptyLiveDB ar hx with h | ⟨w, items, hw, hfw, hin⟩
    · exact absurd h (List.not_mem_nil ar)
    · rcases mem_windowArtistRows_artist w cd items ar hin with ⟨i, hi, he⟩
      exact ⟨w, items, i, hw, hfw, hi, he⟩
  refine ⟨?_, htr, har, ?_⟩
  · intro w cd2 rank i a rest hi
    show i.artists.headD "" = a
    rw [hi]
    rfl
  · intro b hb
    constructor
    · intro x hx he
      rcases htr x hx with ⟨w, items, i, hw, hfw, hi, he2⟩
      exact hb w items i hw hfw hi (he2 ▸ he)
    · intro ar hx he
      rcases har ar hx with ⟨w, items, i, hw, hfw, hi, he2⟩
      exact hb w items i hw hfw hi (he2 ▸ he)

/-- Witness for C10: the row built from item `a :: []` carries artist P, and
no row of the example run carries an artist name that is never first. -/
theorem first_artist_only_witness :
    (exItemA.artists = "P" :: [] ∧ (mkTrackRow "w" "c" 1 exItemA).artist_name = "P")
    ∧ (∀ w items i, w ∈ timePeriods → exFetch1 w = Except.ok items → i ∈ items →
        i.artists.headD "" ≠ "Q")
    ∧ (∀ x ∈ (fetchListeningData exFetch1 "d1" emptyLiveDB).1.tracks,
        x.artist_name ≠ "Q") := by
  have hb : ∀ w items i, w ∈ timePeriods → exFetch1 w = Except.ok items → i ∈ items →
      i.artists.headD "" ≠ "Q" := by
    intro w items i _ hfw hi
    by_cases hw : w = "short_term"
    · rw [exFetch1, if_pos hw] at hfw
      cases hfw
      rw [List.mem_singleton.mp hi]
      decide
    · rw [exFetch1, if_neg hw] at hfw
      cases hfw
      exact absurd hi (List.not_mem_nil i)
  exact ⟨⟨rfl, (first_artist_only exFetch1 "d1").1 "w" "c" 1 exItemA "P" [] rfl⟩,
    hb, ((first_artist_only exFetch1 "d1").2.2.2 "Q" hb).1⟩

end Spotify
